import Mathlib

/-
Shallow embedding of the clone-orchestration core of the repository:
progress store (progress.py), job ledger (job_registry.py), clone
supervisor (clone_worker.py) and repository cache (repo_cache.py).
Python dictionaries are modelled as association lists over a small JSON
value type; the file-backed stores become explicit state threaded through
the functions; the external git subprocess and the wall clock become
explicit environment parameters (spawn outcome, per-iteration
observations, exit code, and the filesystem state the child leaves
behind).
-/

namespace Spec2Proof

/-- JSON-ish values stored in progress records and job details. -/
inductive JVal where
  | s (v : String)
  | i (v : Int)
  | b (v : Bool)
  | strList (v : List String)
deriving DecidableEq, Repr

/-- A Python dict, as an association list with unique-key update semantics. -/
abbrev Dict := List (String × JVal)

/-- d[k] lookup (first occurrence). -/
def dictGet : Dict → String → Option JVal
  | [], _ => none
  | (k1, v1) :: rest, k => if k1 = k then some v1 else dictGet rest k

/-- d[k] = v: overwrite in place if the key is present, else append
(Python dicts keep insertion order). -/
def dictSet : Dict → String → JVal → Dict
  | [], k, v => [(k, v)]
  | (k1, v1) :: rest, k, v =>
      if k1 = k then (k, v) :: rest else (k1, v1) :: dictSet rest k v

/-- d.update(e): fold dictSet over e in order. -/
def dictUpdate (d e : Dict) : Dict :=
  e.foldl (fun acc kv => dictSet acc kv.1 kv.2) d

/-- The keys of a dict. -/
def dictKeys (d : Dict) : List String := d.map Prod.fst

/-- key in d. -/
def dictHas (d : Dict) (k : String) : Bool := (dictGet d k).isSome

/-- Python truthiness of an optional value (None is falsy). -/
def truthy : Option JVal → Bool
  | none => false
  | some (.s v) => v ≠ ""
  | some (.i v) => v ≠ 0
  | some (.b v) => v
  | some (.strList v) => v ≠ []

/-- int(max(0, min(100, p))): the percent clamp in set_progress. -/
def pyClamp (p : Int) : Int := max 0 (min 100 p)

/-- str.lower for the ASCII identifiers used by the ledger. -/
def pyLower (s : String) : String :=
  String.mk (s.toList.map Char.toLower)

/-- The filename sanitizer of progress._path: keep alphanumerics and - _,
fall back to "default" when nothing survives. -/
def safeName (taskId : String) : String :=
  let kept := taskId.toList.filter (fun c => c.isAlphanum || c = '-' || c = '_')
  if kept = [] then "default" else String.mk kept

/- ---------------------------------------------------------------------
   Job ledger (job_registry.py). Timestamps produced by _now() are passed
   in as an explicit `now` string (one value per call).
--------------------------------------------------------------------- -/

/-- One entry of a job record history: {"at": ..., "status": ...}. -/
structure HistEntry where
  at_ : String
  status : String
deriving DecidableEq, Repr

/-- A job record of outputs/jobs.json.  The fields create_job writes as
strings stay strings; agent and priority can be overwritten with arbitrary
caller-supplied values through details, so they are JVal. -/
structure Job where
  id : String
  repo_url : String
  status : String
  agent : JVal
  priority : JVal
  date : String
  created_at : String
  updated_at : String
  ended_at : String
  details : Dict
  history : List HistEntry
deriving DecidableEq, Repr

/-- create_job: drop any record with the same id, append a fresh one. -/
def create_job (jobs : List Job) (taskId repoUrl now : String) : List Job :=
  (jobs.filter (fun j => j.id ≠ taskId)) ++
    [{ id := taskId
       repo_url := repoUrl
       status := "pending"
       agent := .s "CodeAnalyzer"
       priority := .s "medium"
       date := now
       created_at := now
       updated_at := now
       ended_at := ""
       details := [("stage", .s "start")]
       history := [⟨now, "pending"⟩] }]

/-- Truthiness of the optional details argument (None and {} are falsy). -/
def detailsTruthy : Option Dict → Bool
  | none => false
  | some d => d ≠ []

/-- The per-record mutation of update_job applied to the matching job. -/
def applyUpdate (status : String) (details : Option Dict) (now : String)
    (j : Job) : Job :=
  let j := { j with status := status }
  -- if details: merge into j["details"], lifting agent/priority to top level
  let j :=
    if detailsTruthy details then
      let dd := details.getD []
      let j := { j with details := dictUpdate j.details dd }
      let j :=
        match dictGet dd "agent" with
        | some v => { j with agent := v }
        | none => j
      match dictGet dd "priority" with
      | some v => { j with priority := v }
      | none => j
    else j
  -- enforce the agent mapping by (lowercased) status
  let s := pyLower status
  let mappedAgent : Option String :=
    if s = "completed" then some "DocGenerator"
    else if s = "error" ∨ s = "canceled" ∨ s = "timeout" then some "Supervisor"
    else if s = "pending" ∨ s = "in_progress" then some "CodeAnalyzer"
    else none
  let j :=
    match mappedAgent with
    | some ma =>
        { j with agent := .s ma, details := dictSet j.details "agent" (.s ma) }
    | none => j
  let j := { j with updated_at := now, history := j.history ++ [⟨now, status⟩] }
  -- terminal statuses (checked against the original casing) close ended_at
  if status = "completed" ∨ status = "canceled" ∨ status = "error" ∨
      status = "timeout" then
    { j with ended_at := now }
  else j

/-- Apply f to the first job matching the id (the for/break of update_job). -/
def updateFirst (taskId : String) (f : Job → Job) : List Job → List Job
  | [] => []
  | j :: rest =>
      if j.id = taskId then f j :: rest else j :: updateFirst taskId f rest

/-- update_job: locate the record by id and mutate it in place. -/
def update_job (jobs : List Job) (taskId status : String)
    (details : Option Dict) (now : String) : List Job :=
  updateFirst taskId (applyUpdate status details now) jobs

/-- Lookup of the record a reader sees for an id (first match). -/
def findJob (jobs : List Job) (taskId : String) : Option Job :=
  jobs.find? (fun j => j.id = taskId)

/- ---------------------------------------------------------------------
   Progress store (progress.py).  The per-task JSON files become a store
   keyed by the sanitized file name; every record written is also appended
   to a log so that the sequence of published records can be stated.
--------------------------------------------------------------------- -/

/-- The persisted progress files, keyed by sanitized task id. -/
abbrev ProgStore := List (String × Dict)

def storeGet : ProgStore → String → Option Dict
  | [], _ => none
  | (k1, v1) :: rest, k => if k1 = k then some v1 else storeGet rest k

def storeSet : ProgStore → String → Dict → ProgStore
  | [], k, v => [(k, v)]
  | (k1, v1) :: rest, k, v =>
      if k1 = k then (k, v) :: rest else (k1, v1) :: storeSet rest k v

/-- Progress-module state: the files plus the ordered log of every record
written (the published records observers can see). -/
structure PState where
  prog : ProgStore
  log : List Dict
deriving DecidableEq, Repr

/-- The stage → percent table of _infer_from_jobs. -/
def stageMap (stage : String) : Int :=
  if stage = "validate" then 5
  else if stage = "cache" then 15
  else if stage = "clone" then 40
  else if stage = "map" then 60
  else if stage = "mapped" then 60
  else if stage = "analyze" then 75
  else if stage = "analyzed" then 80
  else if stage = "docs" then 90
  else if stage = "complete" then 100
  else 10

/-- str() of a JVal as used on the stage detail. -/
def pyStr : JVal → String
  | .s v => v
  | .i v => toString v
  | .b true => "True"
  | .b false => "False"
  | .strList _ => "[...]"

/-- _infer_from_jobs: derive a progress record from the ledger when no
progress file exists yet. -/
def infer_from_jobs (jobs : List Job) (taskId : String) : Option Dict :=
  match findJob jobs taskId with
  | none => none
  | some job =>
      let status := job.status
      let stage := dictGet job.details "stage"
      let msg :=
        if truthy (dictGet job.details "message") then
          dictGet job.details "message"
        else dictGet job.details "note"
      let docPath := dictGet job.details "doc_path"
      let percent : Int :=
        match stage with
        | some v => stageMap (pyStr v)
        | none => 10
      let (statusOut, percent) : String × Int :=
        if status = "completed" ∨ status = "done" then ("done", 100)
        else if status = "error" ∨ status = "timeout" then
          (status, max percent 100)
        else if status = "canceled" then ("canceled", percent)
        else ("pending", percent)
      let out : Dict :=
        [("task_id", .s taskId), ("status", .s statusOut),
         ("percent", .i percent)]
      let out := match stage with
        | some v => if truthy (some v) then dictSet out "stage" v else out
        | none => out
      let out := match msg with
        | some v => if truthy (some v) then dictSet out "message" v else out
        | none => out
      let out := match docPath with
        | some v => if truthy (some v) then dictSet out "doc_path" v else out
        | none => out
      some out

/-- get_progress: read the persisted record, else infer from the ledger,
else the unknown/0 default. -/
def get_progress (st : PState) (jobs : List Job) (taskId : String) : Dict :=
  match storeGet st.prog (safeName taskId) with
  | some d => d
  | none =>
      match infer_from_jobs jobs taskId with
      | some d => d
      | none =>
          [("task_id", .s taskId), ("status", .s "unknown"), ("percent", .i 0)]

/-- The record set_progress builds before persisting it. -/
def mkRecord (data : Dict) (taskId status : String) (p : Int)
    (extra : Dict) : Dict :=
  dictUpdate
    (dictUpdate data
      [("task_id", .s taskId), ("status", .s status),
       ("percent", .i (pyClamp p))])
    extra

/-- set_progress: merge status/clamped percent and then extra into the
existing record, persist, and log the published record. -/
def set_progress (st : PState) (jobs : List Job) (taskId status : String)
    (p : Int) (extra : Dict) : PState :=
  let rec0 := mkRecord (get_progress st jobs taskId) taskId status p extra
  { prog := storeSet st.prog (safeName taskId) rec0, log := st.log ++ [rec0] }

/-- The record set_canceled builds: keep the current percent, set
status/canceled, merge the message when non-empty. -/
def scRecord (data : Dict) (msg : String) : Dict :=
  let pct := (dictGet data "percent").getD (.i 0)
  let d2 := dictUpdate data
    [("status", .s "canceled"), ("percent", pct), ("canceled", .b true)]
  if msg ≠ "" then dictSet d2 "message" (.s msg) else d2

/-- set_canceled: persist and log the canceled record. -/
def set_canceled (st : PState) (jobs : List Job) (taskId msg : String) :
    PState :=
  let rec0 := scRecord (get_progress st jobs taskId) msg
  { prog := storeSet st.prog (safeName taskId) rec0, log := st.log ++ [rec0] }

/-- is_canceled: truthiness of the canceled field. -/
def is_canceled (st : PState) (jobs : List Job) (taskId : String) : Bool :=
  truthy (dictGet (get_progress st jobs taskId) "canceled")

/- ---------------------------------------------------------------------
   Clone supervisor (clone_worker.py).  The git subprocess and the wall
   clock are environment data: the spawn outcome, one observation per
   supervising-loop iteration (a possible concurrent cancellation, the
   elapsed seconds, and what the stderr read returned), and the exit code
   proc.wait delivers once the loop breaks out.
--------------------------------------------------------------------- -/

/-- Substring containment, Python's `needle in hay`. -/
def pyIn (needle hay : String) : Bool :=
  go needle.toList hay.toList
where
  go (pat : List Char) : List Char → Bool
    | [] => pat.isPrefixOf []
    | c :: rest => pat.isPrefixOf (c :: rest) || go pat rest

/-- url.rstrip("/"). -/
def rstripSlash (s : String) : String :=
  String.mk ((s.toList.reverse.dropWhile (fun c => c = '/')).reverse)

/-- s.split("/")[-1]: the segment after the last slash. -/
def lastSegment (s : String) : String :=
  String.mk ((s.toList.reverse.takeWhile (fun c => c ≠ '/')).reverse)

/-- Drop a trailing ".git". -/
def stripDotGit (s : String) : String :=
  let r := s.toList.reverse
  if ['t', 'i', 'g', '.'].isPrefixOf r then String.mk ((r.drop 4).reverse)
  else s

/-- os.path.join for the two-component paths used here. -/
def osJoin (a b : String) : String :=
  if b.startsWith "/" then b
  else if a = "" then b
  else if a.endsWith "/" then a ++ b
  else a ++ "/" ++ b

/-- Value of a maximal digit run. -/
def digitsToNat (cs : List Char) : Nat :=
  cs.foldl (fun n c => 10 * n + (c.toNat - 48)) 0

/-- After the literal part of one of the progress patterns: one-or-more
whitespace, one-or-more digits, then a percent sign. -/
def matchTail (rest : List Char) : Option Nat :=
  let (ws, r1) := rest.span (fun c => c.isWhitespace)
  if ws.isEmpty then none
  else
    let (ds, r2) := r1.span (fun c => c.isDigit)
    if ds.isEmpty then none
    else
      match r2 with
      | '%' :: _ => some (digitsToNat ds)
      | _ => none

/-- Regex search for literal-then-whitespace-digits-percent: try every
start position, first complete match wins. -/
def searchNumPercent (pat : List Char) : List Char → Option Nat
  | [] => none
  | c :: rest =>
      if pat.isPrefixOf (c :: rest) then
        match matchTail ((c :: rest).drop pat.length) with
        | some n => some n
        | none => searchNumPercent pat rest
      else searchNumPercent pat rest

/-- _parse_progress: the three phase patterns tried in order. -/
def parse_progress (line : String) : Option Nat :=
  match searchNumPercent "Receiving objects:".toList line.toList with
  | some n => some n
  | none =>
      match searchNumPercent "Resolving deltas:".toList line.toList with
      | some n => some n
      | none => searchNumPercent "Checking out files:".toList line.toList

/-- 20 + int(0.6 * p).  For every phase percent the float truncation
int(0.6 * p) coincides with the integer floor of 3p/5: for p not a
multiple of 5 the real value is at distance at least 0.2 from an integer,
far beyond the rounding error, and for p = 5k the product rounds to
exactly the integer 3k. -/
def mapPercent (p : Nat) : Nat := 20 + 3 * p / 5

/-- What one readline on the child's stderr produced. -/
inductive ReadEv where
  | stderrNone
  | read (line : String) (procEnded : Bool)
deriving DecidableEq, Repr

/-- One supervising-loop iteration's observations: a cancellation message
written concurrently before the iteration (cancel_clone or another
writer), the elapsed wall-clock seconds, and the stderr read. -/
structure Obs where
  cancelMsg : Option String
  elapsed : Nat
  ev : ReadEv
deriving DecidableEq, Repr

/-- How a clone call ended. -/
inductive ExitTag where
  | invalidUrl
  | gitMissing
  | spawnFnf
  | spawnErr
  | canceled
  | timedOut
  | waitErr
  | exited (code : Int)
  | cacheHit
deriving DecidableEq, Repr

/-- Spawn failure modes of subprocess.Popen. -/
inductive SpawnErr where
  | fnf
  | other (msg : String)
deriving DecidableEq, Repr

/-- Environment of one interruptible_clone call. -/
structure CloneEnv where
  tempDir : String
  spawn : Except SpawnErr Unit
  trace : List Obs
  wait : Except String Int
deriving Repr

/-- Result of interruptible_clone: final progress state, returned string,
and which branch returned. -/
structure CloneOut where
  st : PState
  result : String
  tag : ExitTag
deriving Repr

/-- The supervising loop of interruptible_clone.  Each iteration first
applies any concurrent cancellation write, then checks the cancel flag,
then the timeout, then processes one stderr read.  Returns the loop exit:
some tag when the loop returned directly, none when it broke out to
proc.wait.  An exhausted trace stands for a stream that ended with the
child already gone (the break branch). -/
def cloneLoop (jobs : List Job) (taskId : String) (maxSeconds : Nat) :
    PState → List Obs → PState × Option ExitTag
  | st, [] => (st, none)
  | st, o :: rest =>
      let st := match o.cancelMsg with
        | some m => set_canceled st jobs taskId m
        | none => st
      if is_canceled st jobs taskId then
        (set_canceled st jobs taskId "Canceled by user", some .canceled)
      else if o.elapsed > maxSeconds then
        (set_progress st jobs taskId "timeout" 100
          [("message", .s "Clone timed out")], some .timedOut)
      else
        match o.ev with
        | .stderrNone => (st, none)
        | .read line ended =>
            if line = "" then
              if ended then (st, none)
              else cloneLoop jobs taskId maxSeconds st rest
            else
              match parse_progress line with
              | some p =>
                  cloneLoop jobs taskId maxSeconds
                    (set_progress st jobs taskId "cloning"
                      (Int.ofNat (mapPercent p)) [("stage", .s "clone")]) rest
              | none => cloneLoop jobs taskId maxSeconds st rest

/-- interruptible_clone: validate the URL, spawn the shallow clone, run
the supervising loop, then handle the exit code. -/
def interruptible_clone (jobs : List Job) (taskId url : String)
    (maxSeconds : Nat) (env : CloneEnv) (st0 : PState) : CloneOut :=
  if url = "" ∨ ¬ pyIn "github.com" url then
    { st := set_progress st0 jobs taskId "error" 100
        [("message", .s "Invalid GitHub URL")]
      result := "", tag := .invalidUrl }
  else
    match env.spawn with
    | .error .fnf =>
        { st := set_progress st0 jobs taskId "error" 100
            [("message", .s "git not found in PATH")]
          result := "", tag := .spawnFnf }
    | .error (.other m) =>
        { st := set_progress st0 jobs taskId "error" 100 [("message", .s m)]
          result := "", tag := .spawnErr }
    | .ok _ =>
        let repoPath :=
          osJoin env.tempDir (stripDotGit (lastSegment (rstripSlash url)))
        let st1 := set_progress st0 jobs taskId "cloning" 20
          [("stage", .s "clone")]
        match cloneLoop jobs taskId maxSeconds st1 env.trace with
        | (st2, some t) => { st := st2, result := "", tag := t }
        | (st2, none) =>
            match env.wait with
            | .error m =>
                { st := set_progress st2 jobs taskId "error" 100
                    [("message", .s m)]
                  result := "", tag := .waitErr }
            | .ok code =>
                if code = 0 then
                  { st := set_progress st2 jobs taskId "mapped" 60
                      [("stage", .s "map")]
                    result := repoPath, tag := .exited 0 }
                else
                  { st := set_progress st2 jobs taskId "error" 100
                      [("message",
                        .s ("git clone failed: " ++ toString code))]
                    result := "", tag := .exited code }

/-- cancel_clone: `live` says whether the process registry still holds a
handle for the task.  Without one, a canceled record is written anyway and
False is returned. -/
def cancel_clone (st : PState) (jobs : List Job) (taskId : String)
    (live : Bool) : PState × Bool :=
  if live then (set_canceled st jobs taskId "Canceled by user", true)
  else (set_canceled st jobs taskId "No running process", false)

/- ---------------------------------------------------------------------
   Repository cache (repo_cache.py).  The cache filesystem is the state of
   each candidate cache path: absent, a stray file, or a directory that
   does or does not contain the .git marker.  The sha1(url)[:8] digest of
   _key is an external hash: the functions are parameterized over it, and
   every claim below holds for an arbitrary such function, using only that
   it is a fixed function of the url.
--------------------------------------------------------------------- -/

/-- State of one cache path on disk. -/
inductive CacheEntry where
  | absent
  | file
  | dir (hasGit : Bool)
deriving DecidableEq, Repr

/-- The cache filesystem: entry per path, absent when unlisted. -/
abbrev CacheFs := List (String × CacheEntry)

def fsGet : CacheFs → String → CacheEntry
  | [], _ => .absent
  | (k1, v1) :: rest, k => if k1 = k then v1 else fsGet rest k

def fsSet : CacheFs → String → CacheEntry → CacheFs
  | [], k, v => [(k, v)]
  | (k1, v1) :: rest, k, v =>
      if k1 = k then (k, v) :: rest else (k1, v1) :: fsSet rest k v

/-- _key: sanitized display name from the url plus the 8-character hash
abbreviation of the full url. -/
def key_of (hash8 : String → String) (url : String) : String :=
  let name := stripDotGit (lastSegment (rstripSlash url))
  let safe := String.mk
    (name.toList.filter (fun c => c.isAlphanum || c = '-' || c = '_'))
  safe ++ "-" ++ hash8 url

/-- The cache directory for a url, under CACHE_ROOT = outputs/cache. -/
def cachePath (hash8 : String → String) (url : String) : String :=
  "outputs/cache/" ++ key_of hash8 url

/-- get_cached_path: the path only if it exists, is a directory, and
contains the .git marker. -/
def get_cached_path (hash8 : String → String) (fs : CacheFs)
    (url : String) : Option String :=
  let path := cachePath hash8 url
  if fsGet fs path = .dir true then some path else none

/-- shutil.rmtree(path, ignore_errors=True): removes a directory tree;
on a plain file it raises (suppressed), leaving the file in place. -/
def rmtree (fs : CacheFs) (path : String) : CacheFs :=
  match fsGet fs path with
  | .dir _ => fsSet fs path .absent
  | _ => fs

/-- Python l[-5:]. -/
def lastFive (l : List String) : List String := l.drop (l.length - 5)

/-- str.splitlines restricted to newline separators (the only case the
stderr tail can contain). -/
def pySplitlines (s : String) : List String :=
  if s = "" then []
  else
    let parts := s.splitOn "\n"
    if s.endsWith "\n" then parts.dropLast else parts

/-- Environment of one ensure_cached_repo call: availability of the git
binary, the spawn outcome, the loop observations, the exit code, the
stderr text recovered by communicate on failure (none when that raised),
and the state the child process leaves at the cache path by the time the
call returns. -/
structure EnsureEnv where
  gitAvailable : Bool
  spawn : Except SpawnErr Unit
  trace : List Obs
  wait : Except String Int
  commErr : Option String
  childFs : CacheEntry
deriving Repr

/-- Result of ensure_cached_repo: progress state, cache filesystem,
returned string, branch taken, and whether a clone process was spawned. -/
structure EnsureOut where
  st : PState
  fs : CacheFs
  result : String
  tag : ExitTag
  spawned : Bool
deriving Repr

/-- The supervising loop of ensure_cached_repo: identical structure to
cloneLoop but with the cache-specific messages and no line parsing. -/
def ensureLoop (jobs : List Job) (taskId : String) (timeout : Nat) :
    PState → List Obs → PState × Option ExitTag
  | st, [] => (st, none)
  | st, o :: rest =>
      let st := match o.cancelMsg with
        | some m => set_canceled st jobs taskId m
        | none => st
      if is_canceled st jobs taskId then
        (set_canceled st jobs taskId "Canceled during cache", some .canceled)
      else if o.elapsed > timeout then
        (set_progress st jobs taskId "timeout" 100
          [("message", .s "Cache clone timed out")], some .timedOut)
      else
        match o.ev with
        | .stderrNone => (st, none)
        | .read line ended =>
            if line = "" then
              if ended then (st, none)
              else ensureLoop jobs taskId timeout st rest
            else ensureLoop jobs taskId timeout st rest

/-- ensure_cached_repo: validate, try the cache, otherwise clear the slot
and run a supervised clone into it. -/
def ensure_cached_repo (hash8 : String → String) (jobs : List Job)
    (taskId url : String) (refresh : Bool) (timeout : Nat)
    (env : EnsureEnv) (st0 : PState) (fs0 : CacheFs) : EnsureOut :=
  if url = "" ∨ ¬ pyIn "github.com" url then
    { st := set_progress st0 jobs taskId "error" 100
        [("stage", .s "cache"), ("message", .s "Invalid GitHub URL")]
      fs := fs0, result := "", tag := .invalidUrl, spawned := false }
  else
    let path := cachePath hash8 url
    if ¬ refresh ∧ (get_cached_path hash8 fs0 url).isSome then
      { st := set_progress st0 jobs taskId "cache" 25
          [("stage", .s "cache"), ("cached", .b true)]
        fs := fs0, result := path, tag := .cacheHit, spawned := false }
    else
      -- clean any existing folder, then check for git
      let fs1 := if fsGet fs0 path ≠ .absent then rmtree fs0 path else fs0
      if ¬ env.gitAvailable then
        { st := set_progress st0 jobs taskId "error" 100
            [("stage", .s "cache"), ("message", .s "git not found in PATH")]
          fs := fs1, result := "", tag := .gitMissing, spawned := false }
      else
        match env.spawn with
        | .error .fnf =>
            { st := set_progress st0 jobs taskId "error" 100
                [("stage", .s "cache"),
                 ("message", .s "git not found in PATH")]
              fs := fs1, result := "", tag := .spawnFnf, spawned := false }
        | .error (.other m) =>
            { st := set_progress st0 jobs taskId "error" 100
                [("stage", .s "cache"), ("message", .s m)]
              fs := fs1, result := "", tag := .spawnErr, spawned := false }
        | .ok _ =>
            -- the child owns the slot from here on; by return time the
            -- path holds whatever the child left there
            let fs2 := fsSet fs1 path env.childFs
            let st1 := set_progress st0 jobs taskId "cache" 15
              [("stage", .s "cache"), ("action", .s "cloning")]
            match ensureLoop jobs taskId timeout st1 env.trace with
            | (st2, some t) =>
                { st := st2, fs := fs2, result := "", tag := t,
                  spawned := true }
            | (st2, none) =>
                match env.wait with
                | .error m =>
                    { st := set_progress st2 jobs taskId "error" 100
                        [("stage", .s "cache"), ("message", .s m)]
                      fs := fs2, result := "", tag := .waitErr,
                      spawned := true }
                | .ok code =>
                    if code = 0 then
                      { st := set_progress st2 jobs taskId "cache" 25
                          [("stage", .s "cache")]
                        fs := fs2, result := path, tag := .exited 0,
                        spawned := true }
                    else
                      { st := set_progress st2 jobs taskId "error" 100
                          [("stage", .s "cache"),
                           ("message",
                            .s ("git clone failed: " ++ toString code)),
                           ("stderr",
                            .strList
                              (lastFive
                                (pySplitlines (env.commErr.getD ""))))]
                        fs := fs2, result := "", tag := .exited code,
                        spawned := true }

/- ---------------------------------------------------------------------
   Observation helpers for the published-record log.
--------------------------------------------------------------------- -/

/-- The last record published. -/
def lastLog (st : PState) : Option Dict := st.log.getLast?

/-- A field of the last record published. -/
def lastField (st : PState) (k : String) : Option JVal :=
  (lastLog st).bind (fun r => dictGet r k)

/-- The percent values carried by the published records, in order. -/
def logPercents (st : PState) : List Int :=
  st.log.filterMap (fun r =>
    match dictGet r "percent" with
    | some (.i n) => some n
    | _ => none)

/-- The phase percents the supervising loop can recognize on a trace, in
order: one per iteration whose stderr read is a non-empty line carrying a
progress marker. -/
def parsedPercents (trace : List Obs) : List Nat :=
  trace.filterMap (fun o =>
    match o.ev with
    | .stderrNone => none
    | .read line _ => if line = "" then none else parse_progress line)

/- ---------------------------------------------------------------------
   Basic lemmas on dicts, stores and logs.
--------------------------------------------------------------------- -/

theorem dictGet_dictSet_self (d : Dict) (k : String) (v : JVal) :
    dictGet (dictSet d k v) k = some v := by
  induction d with
  | nil => simp [dictSet, dictGet]
  | cons kv rest ih =>
      obtain ⟨k1, v1⟩ := kv
      by_cases h : k1 = k
      · simp [dictSet, dictGet, h]
      · simp [dictSet, dictGet, h, ih]

theorem dictGet_dictSet_ne (d : Dict) (k k2 : String) (v : JVal)
    (h : k2 ≠ k) : dictGet (dictSet d k v) k2 = dictGet d k2 := by
  induction d with
  | nil => simp [dictSet, dictGet, Ne.symm h]
  | cons kv rest ih =>
      obtain ⟨k1, v1⟩ := kv
      by_cases h1 : k1 = k
      · subst h1
        simp [dictSet, dictGet, Ne.symm h]
      · by_cases h2 : k1 = k2 <;> simp [dictSet, dictGet, h1, h2, h, ih]

theorem dictGet_dictUpdate_not_mem (e : Dict) (k : String)
    (h : k ∉ dictKeys e) : ∀ d, dictGet (dictUpdate d e) k = dictGet d k := by
  induction e with
  | nil => intro d; simp [dictUpdate]
  | cons kv rest ih =>
      intro d
      obtain ⟨k1, v1⟩ := kv
      simp only [dictKeys, List.map_cons, List.mem_cons] at h
      push_neg at h
      have step : dictUpdate d ((k1, v1) :: rest) =
          dictUpdate (dictSet d k1 v1) rest := by
        simp [dictUpdate, List.foldl_cons]
      rw [step, ih (by simpa [dictKeys] using h.2),
        dictGet_dictSet_ne _ _ _ _ h.1]

theorem dictHas_dictSet_of (d : Dict) (k k2 : String) (v : JVal)
    (h : dictHas d k2 = true) : dictHas (dictSet d k v) k2 = true := by
  by_cases hk : k2 = k
  · subst hk; simp [dictHas, dictGet_dictSet_self]
  · simpa [dictHas, dictGet_dictSet_ne _ _ _ _ hk] using h

theorem dictHas_dictUpdate_left (e : Dict) (k : String) :
    ∀ d, dictHas d k = true → dictHas (dictUpdate d e) k = true := by
  induction e with
  | nil => intro d h; simpa [dictUpdate] using h
  | cons kv rest ih =>
      intro d h
      have step : dictUpdate d (kv :: rest) =
          dictUpdate (dictSet d kv.1 kv.2) rest := by
        simp [dictUpdate, List.foldl_cons]
      rw [step]
      exact ih _ (dictHas_dictSet_of _ _ _ _ h)

theorem dictHas_dictUpdate_right (e : Dict) (k : String)
    (h : k ∈ dictKeys e) : ∀ d, dictHas (dictUpdate d e) k = true := by
  induction e with
  | nil => simp [dictKeys] at h
  | cons kv rest ih =>
      intro d
      have step : dictUpdate d (kv :: rest) =
          dictUpdate (dictSet d kv.1 kv.2) rest := by
        simp [dictUpdate, List.foldl_cons]
      rw [step]
      simp only [dictKeys, List.map_cons, List.mem_cons] at h
      rcases h with h | h
      · by_cases hm : k ∈ dictKeys rest
        · exact ih hm _
        · subst h
          simp [dictHas, dictGet_dictUpdate_not_mem rest kv.1 hm,
            dictGet_dictSet_self]
      · exact ih h _

theorem storeGet_storeSet_self (s : ProgStore) (k : String) (v : Dict) :
    storeGet (storeSet s k v) k = some v := by
  induction s with
  | nil => simp [storeSet, storeGet]
  | cons kv rest ih =>
      obtain ⟨k1, v1⟩ := kv
      by_cases h : k1 = k
      · simp [storeSet, storeGet, h]
      · simp [storeSet, storeGet, h, ih]

theorem fsGet_fsSet_self (fs : CacheFs) (k : String) (v : CacheEntry) :
    fsGet (fsSet fs k v) k = v := by
  induction fs with
  | nil => simp [fsSet, fsGet]
  | cons kv rest ih =>
      obtain ⟨k1, v1⟩ := kv
      by_cases h : k1 = k
      · simp [fsSet, fsGet, h]
      · simp [fsSet, fsGet, h, ih]

theorem getLast?_append_singleton {α : Type} (l : List α) (a : α) :
    (l ++ [a]).getLast? = some a :=
  List.getLast?_concat l

/- ---------------------------------------------------------------------
   Lemmas about the records set_progress and set_canceled publish.
--------------------------------------------------------------------- -/

theorem mkRecord_eq (data : Dict) (taskId status : String) (p : Int)
    (extra : Dict) :
    mkRecord data taskId status p extra =
      dictUpdate
        (dictSet (dictSet (dictSet data "task_id" (.s taskId))
          "status" (.s status)) "percent" (.i (pyClamp p))) extra := rfl

theorem mkRecord_status (data : Dict) (taskId status : String) (p : Int)
    (extra : Dict) (h : "status" ∉ dictKeys extra) :
    dictGet (mkRecord data taskId status p extra) "status" =
      some (.s status) := by
  rw [mkRecord_eq, dictGet_dictUpdate_not_mem extra _ h,
    dictGet_dictSet_ne _ _ _ _ (by decide), dictGet_dictSet_self]

theorem mkRecord_percent (data : Dict) (taskId status : String) (p : Int)
    (extra : Dict) (h : "percent" ∉ dictKeys extra) :
    dictGet (mkRecord data taskId status p extra) "percent" =
      some (.i (pyClamp p)) := by
  rw [mkRecord_eq, dictGet_dictUpdate_not_mem extra _ h,
    dictGet_dictSet_self]

theorem mkRecord_other (data : Dict) (taskId status : String) (p : Int)
    (extra : Dict) (k : String) (h : k ∉ dictKeys extra)
    (h1 : k ≠ "task_id") (h2 : k ≠ "status") (h3 : k ≠ "percent") :
    dictGet (mkRecord data taskId status p extra) k = dictGet data k := by
  rw [mkRecord_eq, dictGet_dictUpdate_not_mem extra _ h,
    dictGet_dictSet_ne _ _ _ _ h3, dictGet_dictSet_ne _ _ _ _ h2,
    dictGet_dictSet_ne _ _ _ _ h1]

theorem get_progress_set_progress (st : PState) (jobs : List Job)
    (taskId status : String) (p : Int) (extra : Dict) :
    get_progress (set_progress st jobs taskId status p extra) jobs taskId =
      mkRecord (get_progress st jobs taskId) taskId status p extra := by
  simp [get_progress, set_progress, storeGet_storeSet_self]

theorem lastLog_set_progress (st : PState) (jobs : List Job)
    (taskId status : String) (p : Int) (extra : Dict) :
    lastLog (set_progress st jobs taskId status p extra) =
      some (mkRecord (get_progress st jobs taskId) taskId status p extra) := by
  simp [lastLog, set_progress, getLast?_append_singleton]

theorem is_canceled_set_progress (st : PState) (jobs : List Job)
    (taskId status : String) (p : Int) (extra : Dict)
    (h : "canceled" ∉ dictKeys extra) :
    is_canceled (set_progress st jobs taskId status p extra) jobs taskId =
      is_canceled st jobs taskId := by
  rw [is_canceled, get_progress_set_progress,
    mkRecord_other _ _ _ _ _ _ h (by decide) (by decide) (by decide),
    is_canceled]

theorem scRecord_canceled (data : Dict) (msg : String) :
    dictGet (scRecord data msg) "canceled" = some (.b true) := by
  unfold scRecord
  by_cases h : msg = "" <;>
    simp [h, dictUpdate, dictGet_dictSet_self,
      dictGet_dictSet_ne _ _ _ _ (by decide : ("canceled" : String) ≠ "message")]

theorem scRecord_status (data : Dict) (msg : String) :
    dictGet (scRecord data msg) "status" = some (.s "canceled") := by
  unfold scRecord
  by_cases h : msg = "" <;>
    simp [h, dictUpdate,
      dictGet_dictSet_ne _ _ _ _ (by decide : ("status" : String) ≠ "message"),
      dictGet_dictSet_ne _ _ _ _ (by decide : ("status" : String) ≠ "canceled"),
      dictGet_dictSet_ne _ _ _ _ (by decide : ("status" : String) ≠ "percent"),
      dictGet_dictSet_self]

theorem scRecord_message (data : Dict) (msg : String) (h : msg ≠ "") :
    dictGet (scRecord data msg) "message" = some (.s msg) := by
  unfold scRecord
  simp [h, dictGet_dictSet_self]

theorem get_progress_set_canceled (st : PState) (jobs : List Job)
    (taskId msg : String) :
    get_progress (set_canceled st jobs taskId msg) jobs taskId =
      scRecord (get_progress st jobs taskId) msg := by
  simp [get_progress, set_canceled, storeGet_storeSet_self]

theorem lastLog_set_canceled (st : PState) (jobs : List Job)
    (taskId msg : String) :
    lastLog (set_canceled st jobs taskId msg) =
      some (scRecord (get_progress st jobs taskId) msg) := by
  simp [lastLog, set_canceled, getLast?_append_singleton]

theorem is_canceled_set_canceled (st : PState) (jobs : List Job)
    (taskId msg : String) :
    is_canceled (set_canceled st jobs taskId msg) jobs taskId = true := by
  rw [is_canceled, get_progress_set_canceled, scRecord_canceled]
  rfl

theorem logPercents_set_progress (st : PState) (jobs : List Job)
    (taskId status : String) (p : Int) (extra : Dict)
    (h : "percent" ∉ dictKeys extra) :
    logPercents (set_progress st jobs taskId status p extra) =
      logPercents st ++ [pyClamp p] := by
  simp only [logPercents, set_progress, List.filterMap_append]
  rw [show mkRecord (get_progress st jobs taskId) taskId status p extra =
    mkRecord (get_progress st jobs taskId) taskId status p extra from rfl]
  simp [List.filterMap, mkRecord_percent _ _ _ _ _ h]

/- ---------------------------------------------------------------------
   Shape of the supervising-loop results.
--------------------------------------------------------------------- -/

theorem cloneLoop_cases (jobs : List Job) (taskId : String)
    (maxSeconds : Nat) :
    ∀ (trace : List Obs) (st st2 : PState) (tag : ExitTag),
      cloneLoop jobs taskId maxSeconds st trace = (st2, some tag) →
      (tag = .canceled ∧
        ∃ stm, st2 = set_canceled stm jobs taskId "Canceled by user") ∨
      (tag = .timedOut ∧
        ∃ stm, st2 = set_progress stm jobs taskId "timeout" 100
          [("message", .s "Clone timed out")]) := by
  intro trace
  induction trace with
  | nil =>
      intro st st2 tag h
      simp [cloneLoop] at h
  | cons o rest ih =>
      intro st st2 tag h
      rw [cloneLoop] at h
      set st1 := (match o.cancelMsg with
        | some m => set_canceled st jobs taskId m
        | none => st) with hst1
      by_cases hc : is_canceled st1 jobs taskId = true
      · rw [if_pos hc] at h
        injection h with h1 h2
        injection h2 with h3
        left
        exact ⟨h3.symm, st1, h1.symm⟩
      · rw [if_neg hc] at h
        by_cases ht : o.elapsed > maxSeconds
        · rw [if_pos ht] at h
          injection h with h1 h2
          injection h2 with h3
          right
          exact ⟨h3.symm, st1, h1.symm⟩
        · rw [if_neg ht] at h
          cases hev : o.ev with
          | stderrNone =>
              simp only [hev] at h
              exact absurd (congrArg Prod.snd h) (by simp)
          | read line ended =>
              simp only [hev] at h
              by_cases hl : line = ""
              · rw [if_pos hl] at h
                cases ended with
                | true => exact absurd (congrArg Prod.snd h) (by simp)
                | false =>
                    simp only [Bool.false_eq_true, if_false] at h
                    exact ih st1 st2 tag h
              · rw [if_neg hl] at h
                cases hp : parse_progress line with
                | some p =>
                    rw [hp] at h
                    exact ih _ st2 tag h
                | none =>
                    rw [hp] at h
                    exact ih st1 st2 tag h

theorem ensureLoop_cases (jobs : List Job) (taskId : String)
    (timeout : Nat) :
    ∀ (trace : List Obs) (st st2 : PState) (tag : ExitTag),
      ensureLoop jobs taskId timeout st trace = (st2, some tag) →
      (tag = .canceled ∧
        ∃ stm, st2 = set_canceled stm jobs taskId "Canceled during cache") ∨
      (tag = .timedOut ∧
        ∃ stm, st2 = set_progress stm jobs taskId "timeout" 100
          [("message", .s "Cache clone timed out")]) := by
  intro trace
  induction trace with
  | nil =>
      intro st st2 tag h
      simp [ensureLoop] at h
  | cons o rest ih =>
      intro st st2 tag h
      rw [ensureLoop] at h
      set st1 := (match o.cancelMsg with
        | some m => set_canceled st jobs taskId m
        | none => st) with hst1
      by_cases hc : is_canceled st1 jobs taskId = true
      · rw [if_pos hc] at h
        injection h with h1 h2
        injection h2 with h3
        left
        exact ⟨h3.symm, st1, h1.symm⟩
      · rw [if_neg hc] at h
        by_cases ht : o.elapsed > timeout
        · rw [if_pos ht] at h
          injection h with h1 h2
          injection h2 with h3
          right
          exact ⟨h3.symm, st1, h1.symm⟩
        · rw [if_neg ht] at h
          cases hev : o.ev with
          | stderrNone =>
              simp only [hev] at h
              exact absurd (congrArg Prod.snd h) (by simp)
          | read line ended =>
              simp only [hev] at h
              by_cases hl : line = ""
              · rw [if_pos hl] at h
                cases ended with
                | true => exact absurd (congrArg Prod.snd h) (by simp)
                | false =>
                    simp only [Bool.false_eq_true, if_false] at h
                    exact ih st1 st2 tag h
              · rw [if_neg hl] at h
                exact ih st1 st2 tag h

theorem lastField_set_progress (st : PState) (jobs : List Job)
    (taskId status : String) (p : Int) (extra : Dict) (k : String) :
    lastField (set_progress st jobs taskId status p extra) k =
      dictGet (mkRecord (get_progress st jobs taskId) taskId status p extra)
        k := by
  simp [lastField, lastLog_set_progress]

/-- Fields of an error record published with extra = {message}. -/
theorem errMsg_fields (st : PState) (jobs : List Job) (taskId m : String) :
    lastField (set_progress st jobs taskId "error" 100
      [("message", .s m)]) "status" = some (.s "error") ∧
    lastField (set_progress st jobs taskId "error" 100
      [("message", .s m)]) "percent" = some (.i 100) ∧
    lastField (set_progress st jobs taskId "error" 100
      [("message", .s m)]) "message" = some (.s m) := by
  refine ⟨?_, ?_, ?_⟩
  · rw [lastField_set_progress,
      mkRecord_status _ _ _ _ _ (by simp [dictKeys])]
  · rw [lastField_set_progress,
      mkRecord_percent _ _ _ _ _ (by simp [dictKeys])]
    decide
  · rw [lastField_set_progress, mkRecord_eq]
    simp only [dictUpdate, List.foldl_cons, List.foldl_nil]
    rw [dictGet_dictSet_self]

/-- Fields of an error record published with extra = {stage, message}. -/
theorem errStageMsg_fields (st : PState) (jobs : List Job)
    (taskId sv m : String) :
    lastField (set_progress st jobs taskId "error" 100
      [("stage", .s sv), ("message", .s m)]) "status" = some (.s "error") ∧
    lastField (set_progress st jobs taskId "error" 100
      [("stage", .s sv), ("message", .s m)]) "percent" = some (.i 100) ∧
    lastField (set_progress st jobs taskId "error" 100
      [("stage", .s sv), ("message", .s m)]) "message" = some (.s m) := by
  refine ⟨?_, ?_, ?_⟩
  · rw [lastField_set_progress,
      mkRecord_status _ _ _ _ _ (by simp [dictKeys])]
  · rw [lastField_set_progress,
      mkRecord_percent _ _ _ _ _ (by simp [dictKeys])]
    decide
  · rw [lastField_set_progress, mkRecord_eq]
    simp only [dictUpdate, List.foldl_cons, List.foldl_nil]
    rw [dictGet_dictSet_self]

/- ---------------------------------------------------------------------
   The claims.
--------------------------------------------------------------------- -/

/-- C3: whenever interruptible_clone ends through the timeout branch of
its supervising loop, it returns the empty string and the last record it
published has status "timeout" at percent 100 — in particular not status
"error", so observers can tell a timeout from a process failure. -/
theorem C3_timeout_publishes_timeout (jobs : List Job) (taskId url : String)
    (maxSeconds : Nat) (env : CloneEnv) (st0 : PState)
    (h : (interruptible_clone jobs taskId url maxSeconds env st0).tag =
      .timedOut) :
    (interruptible_clone jobs taskId url maxSeconds env st0).result = "" ∧
    lastField (interruptible_clone jobs taskId url maxSeconds env st0).st
      "status" = some (.s "timeout") ∧
    lastField (interruptible_clone jobs taskId url maxSeconds env st0).st
      "percent" = some (.i 100) ∧
    lastField (interruptible_clone jobs taskId url maxSeconds env st0).st
      "status" ≠ some (.s "error") := by
  unfold interruptible_clone at *
  by_cases hu : url = "" ∨ ¬ pyIn "github.com" url
  · rw [if_pos hu] at h
    exact ExitTag.noConfusion h
  · rw [if_neg hu] at h ⊢
    cases hsp : env.spawn with
    | error e =>
        cases e <;> simp only [hsp] at h ⊢ <;> exact ExitTag.noConfusion h
    | ok u =>
        simp only [hsp] at h ⊢
        cases hcl : cloneLoop jobs taskId maxSeconds
          (set_progress st0 jobs taskId "cloning" 20
            [("stage", .s "clone")]) env.trace with
        | mk st2 r =>
            cases r with
            | none =>
                simp only [hcl] at h ⊢
                cases hw : env.wait with
                | error m =>
                    simp only [hw] at h
                    exact ExitTag.noConfusion h
                | ok code =>
                    simp only [hw] at h
                    by_cases hz : code = 0
                    · rw [if_pos hz] at h
                      exact ExitTag.noConfusion h
                    · rw [if_neg hz] at h
                      exact ExitTag.noConfusion h
            | some t =>
                simp only [hcl] at h ⊢
                subst h
                rcases cloneLoop_cases jobs taskId maxSeconds env.trace
                    _ st2 _ hcl with ⟨hct, _⟩ | ⟨_, stm, hst⟩
                · exact absurd hct (by decide)
                · subst hst
                  have hs := mkRecord_status (get_progress stm jobs taskId)
                    taskId "timeout" 100
                    [("message", JVal.s "Clone timed out")] (by decide)
                  have hp100 := mkRecord_percent (get_progress stm jobs taskId)
                    taskId "timeout" 100
                    [("message", JVal.s "Clone timed out")] (by decide)
                  have hc100 : pyClamp 100 = 100 := by decide
                  refine ⟨by trivial, ?_, ?_, ?_⟩
                  · simp [lastField, lastLog_set_progress, hs]
                  · simp [lastField, lastLog_set_progress, hp100, hc100]
                  · simp [lastField, lastLog_set_progress, hs]

/-- C4: neither interruptible_clone nor ensure_cached_repo propagates a
failure to its caller (both are total functions of their environment);
an invalid URL, a missing git binary, a spawn failure, and an unexpected
exception around the wait each publish a terminal record with status
"error" at percent 100 carrying a message, and return the empty string. -/
theorem C4_failures_return_empty_with_error_record :
    (∀ (jobs : List Job) (taskId url : String) (maxSeconds : Nat)
        (env : CloneEnv) (st0 : PState),
      ((interruptible_clone jobs taskId url maxSeconds env st0).tag =
          .invalidUrl ∨
       (interruptible_clone jobs taskId url maxSeconds env st0).tag =
          .spawnFnf ∨
       (interruptible_clone jobs taskId url maxSeconds env st0).tag =
          .spawnErr ∨
       (interruptible_clone jobs taskId url maxSeconds env st0).tag =
          .waitErr) →
      (interruptible_clone jobs taskId url maxSeconds env st0).result = "" ∧
      lastField (interruptible_clone jobs taskId url maxSeconds env st0).st
        "status" = some (.s "error") ∧
      lastField (interruptible_clone jobs taskId url maxSeconds env st0).st
        "percent" = some (.i 100) ∧
      ∃ m, lastField
        (interruptible_clone jobs taskId url maxSeconds env st0).st
        "message" = some (.s m)) ∧
    (∀ (hash8 : String → String) (jobs : List Job) (taskId url : String)
        (refresh : Bool) (timeout : Nat) (env : EnsureEnv) (st0 : PState)
        (fs0 : CacheFs),
      ((ensure_cached_repo hash8 jobs taskId url refresh timeout env st0
          fs0).tag = .invalidUrl ∨
       (ensure_cached_repo hash8 jobs taskId url refresh timeout env st0
          fs0).tag = .gitMissing ∨
       (ensure_cached_repo hash8 jobs taskId url refresh timeout env st0
          fs0).tag = .spawnFnf ∨
       (ensure_cached_repo hash8 jobs taskId url refresh timeout env st0
          fs0).tag = .spawnErr ∨
       (ensure_cached_repo hash8 jobs taskId url refresh timeout env st0
          fs0).tag = .waitErr) →
      (ensure_cached_repo hash8 jobs taskId url refresh timeout env st0
        fs0).result = "" ∧
      lastField (ensure_cached_repo hash8 jobs taskId url refresh timeout
        env st0 fs0).st "status" = some (.s "error") ∧
      lastField (ensure_cached_repo hash8 jobs taskId url refresh timeout
        env st0 fs0).st "percent" = some (.i 100) ∧
      ∃ m, lastField (ensure_cached_repo hash8 jobs taskId url refresh
        timeout env st0 fs0).st "message" = some (.s m)) := by
  constructor
  · intro jobs taskId url maxSeconds env st0 h
    unfold interruptible_clone at h ⊢
    by_cases hu : url = "" ∨ ¬ pyIn "github.com" url
    · rw [if_pos hu] at h ⊢
      obtain ⟨e1, e2, e3⟩ := errMsg_fields st0 jobs taskId "Invalid GitHub URL"
      exact ⟨by trivial, e1, e2, "Invalid GitHub URL", e3⟩
    · rw [if_neg hu] at h ⊢
      cases hsp : env.spawn with
      | error e =>
          cases e with
          | fnf =>
              simp only [hsp] at h ⊢
              obtain ⟨e1, e2, e3⟩ :=
                errMsg_fields st0 jobs taskId "git not found in PATH"
              exact ⟨by trivial, e1, e2, "git not found in PATH", e3⟩
          | other m =>
              simp only [hsp] at h ⊢
              obtain ⟨e1, e2, e3⟩ := errMsg_fields st0 jobs taskId m
              exact ⟨by trivial, e1, e2, m, e3⟩
      | ok u =>
          simp only [hsp] at h ⊢
          cases hcl : cloneLoop jobs taskId maxSeconds
            (set_progress st0 jobs taskId "cloning" 20
              [("stage", .s "clone")]) env.trace with
          | mk st2 r =>
              cases r with
              | some t =>
                  simp only [hcl] at h
                  rcases cloneLoop_cases jobs taskId maxSeconds env.trace
                      _ st2 t hcl with ⟨hct, _⟩ | ⟨hct, _⟩ <;> subst hct <;>
                    rcases h with h | h | h | h <;> exact ExitTag.noConfusion h
              | none =>
                  simp only [hcl] at h ⊢
                  cases hw : env.wait with
                  | error m =>
                      simp only [hw] at h ⊢
                      obtain ⟨e1, e2, e3⟩ := errMsg_fields st2 jobs taskId m
                      exact ⟨by trivial, e1, e2, m, e3⟩
                  | ok code =>
                      simp only [hw] at h
                      by_cases hz : code = 0
                      · rw [if_pos hz] at h
                        rcases h with h | h | h | h <;>
                          exact ExitTag.noConfusion h
                      · rw [if_neg hz] at h
                        rcases h with h | h | h | h <;>
                          exact ExitTag.noConfusion h
  · intro hash8 jobs taskId url refresh timeout env st0 fs0 h
    unfold ensure_cached_repo at h ⊢
    by_cases hu : url = "" ∨ ¬ pyIn "github.com" url
    · rw [if_pos hu] at h ⊢
      obtain ⟨e1, e2, e3⟩ :=
        errStageMsg_fields st0 jobs taskId "cache" "Invalid GitHub URL"
      exact ⟨by trivial, e1, e2, "Invalid GitHub URL", e3⟩
    · rw [if_neg hu] at h ⊢
      by_cases hhit : ¬ refresh ∧
          (get_cached_path hash8 fs0 url).isSome = true
      · rw [if_pos hhit] at h
        rcases h with h | h | h | h | h <;> exact ExitTag.noConfusion h
      · rw [if_neg hhit] at h ⊢
        by_cases hg : env.gitAvailable = true
        · rw [if_neg (not_not_intro hg)] at h ⊢
          cases hsp : env.spawn with
          | error e =>
              cases e with
              | fnf =>
                  simp only [hsp] at h ⊢
                  obtain ⟨e1, e2, e3⟩ := errStageMsg_fields st0 jobs taskId
                    "cache" "git not found in PATH"
                  exact ⟨by trivial, e1, e2, "git not found in PATH", e3⟩
              | other m =>
                  simp only [hsp] at h ⊢
                  obtain ⟨e1, e2, e3⟩ :=
                    errStageMsg_fields st0 jobs taskId "cache" m
                  exact ⟨by trivial, e1, e2, m, e3⟩
          | ok u =>
              simp only [hsp] at h ⊢
              cases hcl : ensureLoop jobs taskId timeout
                (set_progress st0 jobs taskId "cache" 15
                  [("stage", .s "cache"), ("action", .s "cloning")])
                env.trace with
              | mk st2 r =>
                  cases r with
                  | some t =>
                      simp only [hcl] at h
                      rcases ensureLoop_cases jobs taskId timeout env.trace
                          _ st2 t hcl with ⟨hct, _⟩ | ⟨hct, _⟩ <;>
                        subst hct <;> rcases h with h | h | h | h | h <;>
                        exact ExitTag.noConfusion h
                  | none =>
                      simp only [hcl] at h ⊢
                      cases hw : env.wait with
                      | error m =>
                          simp only [hw] at h ⊢
                          obtain ⟨e1, e2, e3⟩ :=
                            errStageMsg_fields st2 jobs taskId "cache" m
                          exact ⟨by trivial, e1, e2, m, e3⟩
                      | ok code =>
                          simp only [hw] at h
                          by_cases hz : code = 0
                          · rw [if_pos hz] at h
                            rcases h with h | h | h | h | h <;>
                              exact ExitTag.noConfusion h
                          · rw [if_neg hz] at h
                            rcases h with h | h | h | h | h <;>
                              exact ExitTag.noConfusion h
        · rw [if_pos hg] at h ⊢
          obtain ⟨e1, e2, e3⟩ := errStageMsg_fields st0 jobs taskId
            "cache" "git not found in PATH"
          exact ⟨by trivial, e1, e2, "git not found in PATH", e3⟩

theorem string_eq_empty_of_length (a : String) (h : a.length = 0) :
    a = "" := by
  cases a with
  | mk l =>
      cases l with
      | nil => rfl
      | cons c cs => simp [String.length] at h

theorem str_append_ne_left (a b : String) (ha : a ≠ "") : a ++ b ≠ "" := by
  intro h
  have h0 : (a ++ b).length = 0 := by rw [h]; rfl
  rw [String.length_append] at h0
  exact ha (string_eq_empty_of_length a (by omega))

theorem osJoin_ne_empty (a b : String) (ha : a ≠ "") : osJoin a b ≠ "" := by
  unfold osJoin
  by_cases h1 : b.startsWith "/" = true
  · rw [if_pos h1]
    intro hb
    subst hb
    exact absurd h1 (by decide)
  · rw [if_neg h1, if_neg ha]
    by_cases h2 : a.endsWith "/" = true
    · rw [if_pos h2]
      exact str_append_ne_left a b ha
    · rw [if_neg h2]
      exact str_append_ne_left (a ++ "/") b (str_append_ne_left a "/" ha)

/-- Fields of a record published with extra = {stage}. -/
theorem stageOnly_fields (st : PState) (jobs : List Job)
    (taskId status sv : String) (p : Int) :
    lastField (set_progress st jobs taskId status p
      [("stage", .s sv)]) "status" = some (.s status) ∧
    lastField (set_progress st jobs taskId status p
      [("stage", .s sv)]) "percent" = some (.i (pyClamp p)) := by
  constructor
  · rw [lastField_set_progress,
      mkRecord_status _ _ _ _ _ (by simp [dictKeys])]
  · rw [lastField_set_progress,
      mkRecord_percent _ _ _ _ _ (by simp [dictKeys])]

/-- C6: when the supervised child exits with code 0, interruptible_clone
publishes "mapped" at percent 60 and returns the repository directory
path, a non-empty string; on a nonzero exit code it publishes "error"
with a message carrying the code and returns the empty string. -/
theorem C6_exit_code_handling (jobs : List Job) (taskId url : String)
    (maxSeconds : Nat) (env : CloneEnv) (st0 : PState)
    (htmp : env.tempDir ≠ "") :
    ((interruptible_clone jobs taskId url maxSeconds env st0).tag =
        .exited 0 →
      (interruptible_clone jobs taskId url maxSeconds env st0).result =
        osJoin env.tempDir (stripDotGit (lastSegment (rstripSlash url))) ∧
      (interruptible_clone jobs taskId url maxSeconds env st0).result ≠ "" ∧
      lastField (interruptible_clone jobs taskId url maxSeconds env st0).st
        "status" = some (.s "mapped") ∧
      lastField (interruptible_clone jobs taskId url maxSeconds env st0).st
        "percent" = some (.i 60)) ∧
    (∀ c : Int, c ≠ 0 →
      (interruptible_clone jobs taskId url maxSeconds env st0).tag =
        .exited c →
      (interruptible_clone jobs taskId url maxSeconds env st0).result = "" ∧
      lastField (interruptible_clone jobs taskId url maxSeconds env st0).st
        "status" = some (.s "error") ∧
      lastField (interruptible_clone jobs taskId url maxSeconds env st0).st
        "percent" = some (.i 100) ∧
      lastField (interruptible_clone jobs taskId url maxSeconds env st0).st
        "message" = some (.s ("git clone failed: " ++ toString c))) := by
  by_cases hu : url = "" ∨ ¬ pyIn "github.com" url
  · have heq : interruptible_clone jobs taskId url maxSeconds env st0 =
        ⟨set_progress st0 jobs taskId "error" 100
          [("message", .s "Invalid GitHub URL")], "", .invalidUrl⟩ := by
      unfold interruptible_clone
      rw [if_pos hu]
    constructor
    · intro h
      rw [heq] at h
      exact ExitTag.noConfusion h
    · intro c hc h
      rw [heq] at h
      exact ExitTag.noConfusion h
  · cases hsp : env.spawn with
    | error e =>
        cases e with
        | fnf =>
            have heq : interruptible_clone jobs taskId url maxSeconds env
                st0 = ⟨set_progress st0 jobs taskId "error" 100
                  [("message", .s "git not found in PATH")], "",
                  .spawnFnf⟩ := by
              unfold interruptible_clone
              rw [if_neg hu]
              simp only [hsp]
            constructor
            · intro h
              rw [heq] at h
              exact ExitTag.noConfusion h
            · intro c hc h
              rw [heq] at h
              exact ExitTag.noConfusion h
        | other m =>
            have heq : interruptible_clone jobs taskId url maxSeconds env
                st0 = ⟨set_progress st0 jobs taskId "error" 100
                  [("message", .s m)], "", .spawnErr⟩ := by
              unfold interruptible_clone
              rw [if_neg hu]
              simp only [hsp]
            constructor
            · intro h
              rw [heq] at h
              exact ExitTag.noConfusion h
            · intro c hc h
              rw [heq] at h
              exact ExitTag.noConfusion h
    | ok u =>
        cases hcl : cloneLoop jobs taskId maxSeconds
          (set_progress st0 jobs taskId "cloning" 20
            [("stage", .s "clone")]) env.trace with
        | mk st2 r =>
            cases r with
            | some t =>
                have heq : interruptible_clone jobs taskId url maxSeconds
                    env st0 = ⟨st2, "", t⟩ := by
                  unfold interruptible_clone
                  rw [if_neg hu]
                  simp only [hsp, hcl]
                constructor
                · intro h
                  rw [heq] at h
                  rcases cloneLoop_cases jobs taskId maxSeconds env.trace
                      _ st2 t hcl with ⟨hct, _⟩ | ⟨hct, _⟩ <;> subst hct <;>
                    exact ExitTag.noConfusion h
                · intro c hc h
                  rw [heq] at h
                  rcases cloneLoop_cases jobs taskId maxSeconds env.trace
                      _ st2 t hcl with ⟨hct, _⟩ | ⟨hct, _⟩ <;> subst hct <;>
                    exact ExitTag.noConfusion h
            | none =>
                cases hw : env.wait with
                | error m =>
                    have heq : interruptible_clone jobs taskId url
                        maxSeconds env st0 =
                        ⟨set_progress st2 jobs taskId "error" 100
                          [("message", .s m)], "", .waitErr⟩ := by
                      unfold interruptible_clone
                      rw [if_neg hu]
                      simp only [hsp, hcl, hw]
                    constructor
                    · intro h
                      rw [heq] at h
                      exact ExitTag.noConfusion h
                    · intro c hc h
                      rw [heq] at h
                      exact ExitTag.noConfusion h
                | ok code =>
                    by_cases hz : code = 0
                    · subst hz
                      have heq : interruptible_clone jobs taskId url
                          maxSeconds env st0 =
                          ⟨set_progress st2 jobs taskId "mapped" 60
                            [("stage", .s "map")],
                           osJoin env.tempDir
                             (stripDotGit (lastSegment (rstripSlash url))),
                           .exited 0⟩ := by
                        unfold interruptible_clone
                        rw [if_neg hu]
                        simp only [hsp, hcl, hw]
                        rw [if_pos trivial]
                      constructor
                      · intro _
                        obtain ⟨f1, f2⟩ := stageOnly_fields st2 jobs taskId
                          "mapped" "map" 60
                        simp only [heq]
                        refine ⟨by trivial, osJoin_ne_empty _ _ htmp, f1, ?_⟩
                        rw [f2]
                        decide
                      · intro c hc h
                        simp only [heq] at h
                        exact absurd (ExitTag.exited.inj h).symm hc
                    · have heq : interruptible_clone jobs taskId url
                          maxSeconds env st0 =
                          ⟨set_progress st2 jobs taskId "error" 100
                            [("message",
                              .s ("git clone failed: " ++ toString code))],
                           "", .exited code⟩ := by
                        unfold interruptible_clone
                        rw [if_neg hu]
                        simp only [hsp, hcl, hw]
                        rw [if_neg hz]
                      constructor
                      · intro h
                        simp only [heq] at h
                        exact absurd (ExitTag.exited.inj h) hz
                      · intro c hc h
                        simp only [heq] at h
                        obtain rfl : code = c := ExitTag.exited.inj h
                        obtain ⟨e1, e2, e3⟩ := errMsg_fields st2 jobs taskId
                          ("git clone failed: " ++ toString code)
                        simp only [heq]
                        exact ⟨by trivial, e1, e2, e3⟩

/-- Witness for C3: a trace whose first observation is already past the
180-second budget ends in the timeout record. -/
theorem C3_witness :
    (interruptible_clone [] "t1" "https://github.com/acme/widgets" 180
        ⟨"/tmp/w", .ok (), [⟨none, 200, .read "" false⟩], .ok 0⟩
        ⟨[], []⟩).result = "" ∧
    lastField (interruptible_clone [] "t1" "https://github.com/acme/widgets"
        180 ⟨"/tmp/w", .ok (), [⟨none, 200, .read "" false⟩], .ok 0⟩
        ⟨[], []⟩).st "status" = some (.s "timeout") ∧
    lastField (interruptible_clone [] "t1" "https://github.com/acme/widgets"
        180 ⟨"/tmp/w", .ok (), [⟨none, 200, .read "" false⟩], .ok 0⟩
        ⟨[], []⟩).st "percent" = some (.i 100) ∧
    lastField (interruptible_clone [] "t1" "https://github.com/acme/widgets"
        180 ⟨"/tmp/w", .ok (), [⟨none, 200, .read "" false⟩], .ok 0⟩
        ⟨[], []⟩).st "status" ≠ some (.s "error") :=
  C3_timeout_publishes_timeout [] "t1" "https://github.com/acme/widgets" 180
    ⟨"/tmp/w", .ok (), [⟨none, 200, .read "" false⟩], .ok 0⟩ ⟨[], []⟩
    (by decide)

/-- Witness for C4: an empty URL on both functions publishes the error
record and returns the empty string. -/
theorem C4_witness :
    ((interruptible_clone [] "t1" "" 180 ⟨"/tmp/w", .ok (), [], .ok 0⟩
        ⟨[], []⟩).result = "" ∧
      lastField (interruptible_clone [] "t1" "" 180
        ⟨"/tmp/w", .ok (), [], .ok 0⟩ ⟨[], []⟩).st "status" =
        some (.s "error") ∧
      lastField (interruptible_clone [] "t1" "" 180
        ⟨"/tmp/w", .ok (), [], .ok 0⟩ ⟨[], []⟩).st "percent" =
        some (.i 100) ∧
      ∃ m, lastField (interruptible_clone [] "t1" "" 180
        ⟨"/tmp/w", .ok (), [], .ok 0⟩ ⟨[], []⟩).st "message" =
        some (.s m)) ∧
    ((ensure_cached_repo (fun _ => "aaaaaaaa") [] "t1" "" false 180
        ⟨true, .ok (), [], .ok 0, none, .absent⟩ ⟨[], []⟩ []).result = "" ∧
      lastField (ensure_cached_repo (fun _ => "aaaaaaaa") [] "t1" "" false
        180 ⟨true, .ok (), [], .ok 0, none, .absent⟩ ⟨[], []⟩ []).st
        "status" = some (.s "error") ∧
      lastField (ensure_cached_repo (fun _ => "aaaaaaaa") [] "t1" "" false
        180 ⟨true, .ok (), [], .ok 0, none, .absent⟩ ⟨[], []⟩ []).st
        "percent" = some (.i 100) ∧
      ∃ m, lastField (ensure_cached_repo (fun _ => "aaaaaaaa") [] "t1" ""
        false 180 ⟨true, .ok (), [], .ok 0, none, .absent⟩ ⟨[], []⟩ []).st
        "message" = some (.s m)) :=
  ⟨C4_failures_return_empty_with_error_record.1 [] "t1" "" 180
      ⟨"/tmp/w", .ok (), [], .ok 0⟩ ⟨[], []⟩ (Or.inl (by decide)),
   C4_failures_return_empty_with_error_record.2 (fun _ => "aaaaaaaa") []
      "t1" "" false 180 ⟨true, .ok (), [], .ok 0, none, .absent⟩ ⟨[], []⟩ []
      (Or.inl (by decide))⟩

/-- Witness for C6: a clean exit at code 0 and a failing exit at code 1,
each on a short trace that ends with the child gone. -/
theorem C6_witness :
    ((interruptible_clone [] "t1" "https://github.com/acme/widgets" 180
        ⟨"/tmp/w", .ok (), [⟨none, 1, .read "" true⟩], .ok 0⟩
        ⟨[], []⟩).result =
        osJoin "/tmp/w" (stripDotGit (lastSegment
          (rstripSlash "https://github.com/acme/widgets"))) ∧
      (interruptible_clone [] "t1" "https://github.com/acme/widgets" 180
        ⟨"/tmp/w", .ok (), [⟨none, 1, .read "" true⟩], .ok 0⟩
        ⟨[], []⟩).result ≠ "" ∧
      lastField (interruptible_clone [] "t1"
        "https://github.com/acme/widgets" 180
        ⟨"/tmp/w", .ok (), [⟨none, 1, .read "" true⟩], .ok 0⟩
        ⟨[], []⟩).st "status" = some (.s "mapped") ∧
      lastField (interruptible_clone [] "t1"
        "https://github.com/acme/widgets" 180
        ⟨"/tmp/w", .ok (), [⟨none, 1, .read "" true⟩], .ok 0⟩
        ⟨[], []⟩).st "percent" = some (.i 60)) ∧
    ((interruptible_clone [] "t2" "https://github.com/acme/widgets" 180
        ⟨"/tmp/w", .ok (), [⟨none, 1, .read "" true⟩], .ok 1⟩
        ⟨[], []⟩).result = "" ∧
      lastField (interruptible_clone [] "t2"
        "https://github.com/acme/widgets" 180
        ⟨"/tmp/w", .ok (), [⟨none, 1, .read "" true⟩], .ok 1⟩
        ⟨[], []⟩).st "status" = some (.s "error") ∧
      lastField (interruptible_clone [] "t2"
        "https://github.com/acme/widgets" 180
        ⟨"/tmp/w", .ok (), [⟨none, 1, .read "" true⟩], .ok 1⟩
        ⟨[], []⟩).st "percent" = some (.i 100) ∧
      lastField (interruptible_clone [] "t2"
        "https://github.com/acme/widgets" 180
        ⟨"/tmp/w", .ok (), [⟨none, 1, .read "" true⟩], .ok 1⟩
        ⟨[], []⟩).st "message" =
        some (.s ("git clone failed: " ++ toString (1 : Int)))) :=
  ⟨(C6_exit_code_handling [] "t1" "https://github.com/acme/widgets" 180
      ⟨"/tmp/w", .ok (), [⟨none, 1, .read "" true⟩], .ok 0⟩ ⟨[], []⟩
      (by decide)).1 (by decide),
   (C6_exit_code_handling [] "t2" "https://github.com/acme/widgets" 180
      ⟨"/tmp/w", .ok (), [⟨none, 1, .read "" true⟩], .ok 1⟩ ⟨[], []⟩
      (by decide)).2 1 (by decide) (by decide)⟩

/-- C5 counterexample: set_progress merges extra after clamping, so an
extra dict carrying a "percent" key overrides the clamped value — after
set_progress(t, s, 50, {"percent": 999}) the stored percent is 999, not
clamp(50) = 50. -/
theorem C5_counterexample :
    dictGet (get_progress (set_progress ⟨[], []⟩ [] "t" "s" 50
      [("percent", .i 999)]) [] "t") "percent" = some (.i 999) ∧
    some (JVal.i 999) ≠ some (.i (pyClamp 50)) := by decide

/-- C5 amended: after set_progress(id, s, p, e), get_progress(id) has
percent clamp(p, 0, 100) provided e itself carries no "percent" key
(extra is merged after the clamp and can override it), and every key of e
is present in the result. -/
theorem C5_set_then_get (st : PState) (jobs : List Job) (taskId s : String)
    (p : Int) (e : Dict) (h : "percent" ∉ dictKeys e) :
    dictGet (get_progress (set_progress st jobs taskId s p e) jobs taskId)
      "percent" = some (.i (pyClamp p)) ∧
    ∀ k, k ∈ dictKeys e →
      dictHas (get_progress (set_progress st jobs taskId s p e) jobs taskId)
        k = true := by
  rw [get_progress_set_progress]
  constructor
  · exact mkRecord_percent _ _ _ _ _ h
  · intro k hk
    rw [mkRecord_eq]
    exact dictHas_dictUpdate_right e k hk _

/-- Witness for C5: a percent argument of 150 is stored as the clamp 100,
and the extra key "note" survives into the record. -/
theorem C5_witness :
    dictGet (get_progress (set_progress ⟨[], []⟩ [] "t" "s" 150
      [("note", .s "x")]) [] "t") "percent" = some (.i (pyClamp 150)) ∧
    ∀ k, k ∈ dictKeys [("note", JVal.s "x")] →
      dictHas (get_progress (set_progress ⟨[], []⟩ [] "t" "s" 150
        [("note", .s "x")]) [] "t") k = true :=
  C5_set_then_get ⟨[], []⟩ [] "t" "s" 150 [("note", .s "x")] (by decide)

/-- C10: cancel_clone on a task with no live process returns false but
still writes a canceled record (status "canceled", canceled flag, message
"No running process"); any subsequent interruptible_clone for the same
task that runs at least one loop iteration returns the empty string, and
when the URL is valid and the spawn succeeded it exits through the
canceled branch rather than completing the clone. -/
theorem C10_cancel_without_process (st0 : PState) (jobs : List Job)
    (taskId : String) :
    (cancel_clone st0 jobs taskId false).2 = false ∧
    dictGet (get_progress (cancel_clone st0 jobs taskId false).1 jobs taskId)
      "status" = some (.s "canceled") ∧
    dictGet (get_progress (cancel_clone st0 jobs taskId false).1 jobs taskId)
      "canceled" = some (.b true) ∧
    dictGet (get_progress (cancel_clone st0 jobs taskId false).1 jobs taskId)
      "message" = some (.s "No running process") ∧
    ∀ (url : String) (maxSeconds : Nat) (env : CloneEnv),
      env.trace ≠ [] →
      (interruptible_clone jobs taskId url maxSeconds env
        (cancel_clone st0 jobs taskId false).1).result = "" ∧
      (¬ (url = "" ∨ ¬ pyIn "github.com" url) → env.spawn = .ok () →
        (interruptible_clone jobs taskId url maxSeconds env
          (cancel_clone st0 jobs taskId false).1).tag = .canceled) := by
  have hcc : cancel_clone st0 jobs taskId false =
      (set_canceled st0 jobs taskId "No running process", false) := rfl
  rw [hcc]
  refine ⟨rfl, ?_, ?_, ?_, ?_⟩
  · rw [get_progress_set_canceled, scRecord_status]
  · rw [get_progress_set_canceled, scRecord_canceled]
  · rw [get_progress_set_canceled, scRecord_message _ _ (by decide)]
  · intro url maxSeconds env htr
    have hfst : ((set_canceled st0 jobs taskId "No running process", false) :
        PState × Bool).1 = set_canceled st0 jobs taskId
        "No running process" := rfl
    rw [hfst]
    obtain ⟨o, rest, htrace⟩ : ∃ o rest, env.trace = o :: rest := by
      cases henv : env.trace with
      | nil => exact absurd henv htr
      | cons a b => exact ⟨a, b, rfl⟩
    by_cases hu : url = "" ∨ ¬ pyIn "github.com" url
    · have heq : interruptible_clone jobs taskId url maxSeconds env
          (set_canceled st0 jobs taskId "No running process") =
          ⟨set_progress (set_canceled st0 jobs taskId "No running process")
            jobs taskId "error" 100 [("message", .s "Invalid GitHub URL")],
           "", .invalidUrl⟩ := by
        unfold interruptible_clone
        rw [if_pos hu]
      exact ⟨by rw [heq], fun hv _ => absurd hu hv⟩
    · cases hsp : env.spawn with
      | error e =>
          cases e with
          | fnf =>
              have heq : interruptible_clone jobs taskId url maxSeconds env
                  (set_canceled st0 jobs taskId "No running process") =
                  ⟨set_progress
                      (set_canceled st0 jobs taskId "No running process")
                      jobs taskId "error" 100
                      [("message", .s "git not found in PATH")],
                   "", .spawnFnf⟩ := by
                unfold interruptible_clone
                rw [if_neg hu]
                simp only [hsp]
              refine ⟨by rw [heq], fun _ hs => ?_⟩
              exact Except.noConfusion hs
          | other m =>
              have heq : interruptible_clone jobs taskId url maxSeconds env
                  (set_canceled st0 jobs taskId "No running process") =
                  ⟨set_progress
                      (set_canceled st0 jobs taskId "No running process")
                      jobs taskId "error" 100 [("message", .s m)],
                   "", .spawnErr⟩ := by
                unfold interruptible_clone
                rw [if_neg hu]
                simp only [hsp]
              refine ⟨by rw [heq], fun _ hs => ?_⟩
              exact Except.noConfusion hs
      | ok u =>
          have hcanc1 : is_canceled
              (set_progress (set_canceled st0 jobs taskId
                  "No running process") jobs taskId "cloning" 20
                [("stage", .s "clone")]) jobs taskId = true := by
            rw [is_canceled_set_progress _ _ _ _ _ _ (by simp [dictKeys])]
            exact is_canceled_set_canceled _ _ _ _
          cases hcm : o.cancelMsg with
          | some m =>
              have hstep : cloneLoop jobs taskId maxSeconds
                  (set_progress (set_canceled st0 jobs taskId
                      "No running process") jobs taskId "cloning" 20
                    [("stage", .s "clone")]) (o :: rest) =
                  (set_canceled (set_canceled
                      (set_progress (set_canceled st0 jobs taskId
                          "No running process") jobs taskId "cloning" 20
                        [("stage", .s "clone")]) jobs taskId m)
                    jobs taskId "Canceled by user", some .canceled) := by
                rw [cloneLoop]
                simp only [hcm]
                rw [if_pos (is_canceled_set_canceled _ _ _ _)]
              have heq : interruptible_clone jobs taskId url maxSeconds env
                  (set_canceled st0 jobs taskId "No running process") =
                  ⟨set_canceled (set_canceled
                      (set_progress (set_canceled st0 jobs taskId
                          "No running process") jobs taskId "cloning" 20
                        [("stage", .s "clone")]) jobs taskId m)
                    jobs taskId "Canceled by user", "", .canceled⟩ := by
                unfold interruptible_clone
                rw [if_neg hu]
                simp only [hsp, htrace, hstep]
              exact ⟨by rw [heq], fun _ _ => by rw [heq]⟩
          | none =>
              have hstep : cloneLoop jobs taskId maxSeconds
                  (set_progress (set_canceled st0 jobs taskId
                      "No running process") jobs taskId "cloning" 20
                    [("stage", .s "clone")]) (o :: rest) =
                  (set_canceled
                      (set_progress (set_canceled st0 jobs taskId
                          "No running process") jobs taskId "cloning" 20
                        [("stage", .s "clone")])
                    jobs taskId "Canceled by user", some .canceled) := by
                rw [cloneLoop]
                simp only [hcm]
                rw [if_pos hcanc1]
              have heq : interruptible_clone jobs taskId url maxSeconds env
                  (set_canceled st0 jobs taskId "No running process") =
                  ⟨set_canceled
                      (set_progress (set_canceled st0 jobs taskId
                          "No running process") jobs taskId "cloning" 20
                        [("stage", .s "clone")])
                    jobs taskId "Canceled by user", "", .canceled⟩ := by
                unfold interruptible_clone
                rw [if_neg hu]
                simp only [hsp, htrace, hstep]
              exact ⟨by rw [heq], fun _ _ => by rw [heq]⟩

/-- Witness for C10: the poisoned record blocks a later clone of a valid
URL whose spawn succeeded. -/
theorem C10_witness :
    (cancel_clone ⟨[], []⟩ [] "t1" false).2 = false ∧
    dictGet (get_progress (cancel_clone ⟨[], []⟩ [] "t1" false).1 [] "t1")
      "status" = some (.s "canceled") ∧
    dictGet (get_progress (cancel_clone ⟨[], []⟩ [] "t1" false).1 [] "t1")
      "canceled" = some (.b true) ∧
    dictGet (get_progress (cancel_clone ⟨[], []⟩ [] "t1" false).1 [] "t1")
      "message" = some (.s "No running process") ∧
    (interruptible_clone [] "t1" "https://github.com/acme/widgets" 180
      ⟨"/tmp/w", .ok (), [⟨none, 1, .read "" true⟩], .ok 0⟩
      (cancel_clone ⟨[], []⟩ [] "t1" false).1).result = "" ∧
    (interruptible_clone [] "t1" "https://github.com/acme/widgets" 180
      ⟨"/tmp/w", .ok (), [⟨none, 1, .read "" true⟩], .ok 0⟩
      (cancel_clone ⟨[], []⟩ [] "t1" false).1).tag = .canceled := by
  obtain ⟨w1, w2, w3, w4, w5⟩ := C10_cancel_without_process ⟨[], []⟩ [] "t1"
  obtain ⟨w6, w7⟩ := w5 "https://github.com/acme/widgets" 180
    ⟨"/tmp/w", .ok (), [⟨none, 1, .read "" true⟩], .ok 0⟩ (by decide)
  exact ⟨w1, w2, w3, w4, w6, w7 (by decide) rfl⟩

/-- The percents a quiet run of the supervising loop publishes are exactly
the mapped values of a prefix of the recognized phase percents of the
trace (a prefix because the loop can break out early). -/
theorem cloneLoop_published (jobs : List Job) (taskId : String)
    (maxSeconds : Nat) :
    ∀ (trace : List Obs) (st : PState),
      (∀ o ∈ trace, o.cancelMsg = none ∧ o.elapsed ≤ maxSeconds) →
      is_canceled st jobs taskId = false →
      ∃ ps : List Nat, (∃ t, parsedPercents trace = ps ++ t) ∧
        logPercents (cloneLoop jobs taskId maxSeconds st trace).1 =
          logPercents st ++
            ps.map (fun p => pyClamp (Int.ofNat (mapPercent p))) := by
  intro trace
  induction trace with
  | nil =>
      intro st hobs hcanc
      exact ⟨[], ⟨[], rfl⟩, by simp [cloneLoop]⟩
  | cons o rest ih =>
      intro st hobs hcanc
      have hcm : o.cancelMsg = none := (hobs o (List.mem_cons_self o rest)).1
      have hel : o.elapsed ≤ maxSeconds :=
        (hobs o (List.mem_cons_self o rest)).2
      have hobs2 : ∀ x ∈ rest, x.cancelMsg = none ∧
          x.elapsed ≤ maxSeconds :=
        fun x hx => hobs x (List.mem_cons_of_mem o hx)
      rw [cloneLoop]
      simp only [hcm]
      rw [if_neg (by simp [hcanc]), if_neg (by omega)]
      cases hev : o.ev with
      | stderrNone =>
          refine ⟨[], ⟨parsedPercents (o :: rest), rfl⟩, by simp⟩
      | read line ended =>
          dsimp only
          by_cases hl : line = ""
          · rw [if_pos hl]
            cases ended with
            | true => exact ⟨[], ⟨parsedPercents (o :: rest), rfl⟩, by simp⟩
            | false =>
                simp only [Bool.false_eq_true, if_false]
                obtain ⟨ps, ⟨t, hpt⟩, hlog⟩ := ih st hobs2 hcanc
                refine ⟨ps, ⟨t, ?_⟩, hlog⟩
                simpa [parsedPercents, List.filterMap_cons, hev, hl]
                  using hpt
          · rw [if_neg hl]
            cases hp : parse_progress line with
            | some p =>
                have hc1 : is_canceled (set_progress st jobs taskId "cloning"
                    (Int.ofNat (mapPercent p)) [("stage", .s "clone")])
                    jobs taskId = false := by
                  rw [is_canceled_set_progress _ _ _ _ _ _
                    (by simp [dictKeys])]
                  exact hcanc
                obtain ⟨ps, ⟨t, hpt⟩, hlog⟩ := ih _ hobs2 hc1
                refine ⟨p :: ps, ⟨t, ?_⟩, ?_⟩
                · have : parsedPercents (o :: rest) =
                      p :: parsedPercents rest := by
                    simp [parsedPercents, List.filterMap_cons, hev, hl, hp]
                  rw [this, hpt]
                  rfl
                · rw [hlog, logPercents_set_progress _ _ _ _ _ _
                    (by simp [dictKeys])]
                  simp
            | none =>
                obtain ⟨ps, ⟨t, hpt⟩, hlog⟩ := ih st hobs2 hcanc
                refine ⟨ps, ⟨t, ?_⟩, hlog⟩
                simpa [parsedPercents, List.filterMap_cons, hev, hl, hp]
                  using hpt

/-- C9 counterexample: the published percent sequence is not monotone for
every line sequence — a phase change resets the phase percent, so the
lines "Receiving objects: 100%" then "Resolving deltas: 0%" publish 80
followed by 20.  The full published sequence here is 20 (loop entry), 80,
20, 60 (mapped), which is not a non-decreasing chain. -/
theorem C9_counterexample :
    logPercents (interruptible_clone [] "t1"
      "https://github.com/acme/widgets" 180
      ⟨"/tmp/w", .ok (),
        [⟨none, 0, .read "Receiving objects: 100% (10/10)" false⟩,
         ⟨none, 1, .read "Resolving deltas:   0% (0/5)" false⟩,
         ⟨none, 2, .read "" true⟩], .ok 0⟩ ⟨[], []⟩).st =
      [20, 80, 20, 60] ∧
    ¬ List.Chain' (· ≤ ·) (logPercents (interruptible_clone [] "t1"
      "https://github.com/acme/widgets" 180
      ⟨"/tmp/w", .ok (),
        [⟨none, 0, .read "Receiving objects: 100% (10/10)" false⟩,
         ⟨none, 1, .read "Resolving deltas:   0% (0/5)" false⟩,
         ⟨none, 2, .read "" true⟩], .ok 0⟩ ⟨[], []⟩).st) := by
  have h1 : logPercents (interruptible_clone [] "t1"
      "https://github.com/acme/widgets" 180
      ⟨"/tmp/w", .ok (),
        [⟨none, 0, .read "Receiving objects: 100% (10/10)" false⟩,
         ⟨none, 1, .read "Resolving deltas:   0% (0/5)" false⟩,
         ⟨none, 2, .read "" true⟩], .ok 0⟩ ⟨[], []⟩).st =
      [20, 80, 20, 60] := by decide
  refine ⟨h1, ?_⟩
  rw [h1]
  intro hch
  rw [List.chain'_cons, List.chain'_cons] at hch
  exact absurd hch.2.1 (by decide)

/-- C9 amended: the mapping formula 20 + 0.6p is monotone in the phase
percent, so within a single quiet supervising loop the published percents
form a non-decreasing chain whenever the recognized phase percents do
(and each published value is at least the 20 floor of the destination
range); across phase changes the parsed percents reset and the published
sequence can decrease. -/
theorem C9_mapping_monotone :
    (∀ p q : Nat, p ≤ q → mapPercent p ≤ mapPercent q) ∧
    (∀ (jobs : List Job) (taskId : String) (maxSeconds : Nat)
        (trace : List Obs) (st : PState),
      (∀ o ∈ trace, o.cancelMsg = none ∧ o.elapsed ≤ maxSeconds) →
      is_canceled st jobs taskId = false →
      List.Chain' (· ≤ ·) (parsedPercents trace) →
      ∃ X : List Int,
        logPercents (cloneLoop jobs taskId maxSeconds st trace).1 =
          logPercents st ++ X ∧
        List.Chain' (· ≤ ·) X ∧ ∀ x ∈ X, 20 ≤ x) := by
  have hmono : ∀ p q : Nat, p ≤ q → mapPercent p ≤ mapPercent q := by
    intro p q h
    unfold mapPercent
    exact Nat.add_le_add_left
      (Nat.div_le_div_right (Nat.mul_le_mul_left 3 h)) 20
  refine ⟨hmono, ?_⟩
  intro jobs taskId maxSeconds trace st hobs hcanc hchain
  obtain ⟨ps, ⟨t, hpt⟩, hlog⟩ :=
    cloneLoop_published jobs taskId maxSeconds trace st hobs hcanc
  refine ⟨ps.map (fun p => pyClamp (Int.ofNat (mapPercent p))), hlog, ?_, ?_⟩
  · rw [hpt] at hchain
    have hps : List.Chain' (· ≤ ·) ps := (List.chain'_append.mp hchain).1
    rw [List.chain'_map]
    refine hps.imp ?_
    intro a b hab
    have h1 : mapPercent a ≤ mapPercent b := hmono a b hab
    have h2 : (Int.ofNat (mapPercent a)) ≤ Int.ofNat (mapPercent b) :=
      Int.ofNat_le.mpr h1
    unfold pyClamp
    omega
  · intro x hx
    obtain ⟨p, _, hpx⟩ := List.mem_map.mp hx
    have h20 : (20 : Int) ≤ Int.ofNat (mapPercent p) :=
      Int.ofNat_le.mpr (Nat.le_add_right 20 _)
    rw [← hpx]
    unfold pyClamp
    omega

/-- Witness for C9: a single phase progressing 10 then 50 publishes the
chain 26, 50. -/
theorem C9_witness :
    ∃ X : List Int,
      logPercents (cloneLoop [] "t1" 180 ⟨[], []⟩
        [⟨none, 1, .read "Receiving objects:  10% (1/10)" false⟩,
         ⟨none, 2, .read "Receiving objects:  50% (5/10)" false⟩,
         ⟨none, 3, .read "" true⟩]).1 =
        logPercents (⟨[], []⟩ : PState) ++ X ∧
      List.Chain' (· ≤ ·) X ∧ ∀ x ∈ X, 20 ≤ x := by
  refine C9_mapping_monotone.2 [] "t1" 180
    [⟨none, 1, .read "Receiving objects:  10% (1/10)" false⟩,
     ⟨none, 2, .read "Receiving objects:  50% (5/10)" false⟩,
     ⟨none, 3, .read "" true⟩] ⟨[], []⟩
    (by decide) (by decide) ?_
  have hp : parsedPercents
      [⟨none, 1, .read "Receiving objects:  10% (1/10)" false⟩,
       ⟨none, 2, .read "Receiving objects:  50% (5/10)" false⟩,
       ⟨none, 3, .read "" true⟩] = [10, 50] := by decide
  rw [hp]
  exact List.chain'_cons.mpr ⟨by omega, List.chain'_singleton 50⟩

/-- C1 counterexample: a clone that times out after the child has already
created the cache directory with the version-control marker leaves a path
that passes the validity check — ensure_cached_repo clears the slot
before the clone but performs no cleanup after a failure, so
get_cached_path returns the partial clone. -/
theorem C1_counterexample :
    (ensure_cached_repo (fun _ => "aaaaaaaa") [] "t1"
      "https://github.com/acme/widgets" false 180
      ⟨true, .ok (), [⟨none, 200, .read "" false⟩], .ok 0, none, .dir true⟩
      ⟨[], []⟩ []).spawned = true ∧
    (ensure_cached_repo (fun _ => "aaaaaaaa") [] "t1"
      "https://github.com/acme/widgets" false 180
      ⟨true, .ok (), [⟨none, 200, .read "" false⟩], .ok 0, none, .dir true⟩
      ⟨[], []⟩ []).result = "" ∧
    (ensure_cached_repo (fun _ => "aaaaaaaa") [] "t1"
      "https://github.com/acme/widgets" false 180
      ⟨true, .ok (), [⟨none, 200, .read "" false⟩], .ok 0, none, .dir true⟩
      ⟨[], []⟩ []).tag = .timedOut ∧
    get_cached_path (fun _ => "aaaaaaaa")
      (ensure_cached_repo (fun _ => "aaaaaaaa") [] "t1"
        "https://github.com/acme/widgets" false 180
        ⟨true, .ok (), [⟨none, 200, .read "" false⟩], .ok 0, none,
          .dir true⟩ ⟨[], []⟩ []).fs "https://github.com/acme/widgets" =
      some "outputs/cache/widgets-aaaaaaaa" := by decide

/-- C1 amended: when ensure_cached_repo returns the empty string after the
clone subprocess was spawned, the cache slot holds exactly what the child
left there — so the validity check fails afterwards provided the child
had not already created the directory with the version-control marker.
The implementation clears the slot before the clone, not after a
failure. -/
theorem C1_failed_clone_leaves_child_state (hash8 : String → String)
    (jobs : List Job) (taskId url : String) (refresh : Bool) (timeout : Nat)
    (env : EnsureEnv) (st0 : PState) (fs0 : CacheFs)
    (hsp2 : (ensure_cached_repo hash8 jobs taskId url refresh timeout env
      st0 fs0).spawned = true)
    (hres : (ensure_cached_repo hash8 jobs taskId url refresh timeout env
      st0 fs0).result = "")
    (hch : env.childFs ≠ CacheEntry.dir true) :
    get_cached_path hash8 (ensure_cached_repo hash8 jobs taskId url refresh
      timeout env st0 fs0).fs url = none := by
  by_cases hu : url = "" ∨ ¬ pyIn "github.com" url
  · have heq : ensure_cached_repo hash8 jobs taskId url refresh timeout env
        st0 fs0 = ⟨set_progress st0 jobs taskId "error" 100
          [("stage", .s "cache"), ("message", .s "Invalid GitHub URL")],
          fs0, "", .invalidUrl, false⟩ := by
      unfold ensure_cached_repo
      rw [if_pos hu]
    rw [heq] at hsp2
    exact Bool.noConfusion hsp2
  · by_cases hhit : ¬ refresh ∧ (get_cached_path hash8 fs0 url).isSome = true
    · have heq : ensure_cached_repo hash8 jobs taskId url refresh timeout
          env st0 fs0 = ⟨set_progress st0 jobs taskId "cache" 25
            [("stage", .s "cache"), ("cached", .b true)],
            fs0, cachePath hash8 url, .cacheHit, false⟩ := by
        unfold ensure_cached_repo
        rw [if_neg hu, if_pos hhit]
      rw [heq] at hsp2
      exact Bool.noConfusion hsp2
    · by_cases hg : env.gitAvailable = true
      · cases hsp : env.spawn with
        | error e =>
            cases e with
            | fnf =>
                have heq : ensure_cached_repo hash8 jobs taskId url refresh
                    timeout env st0 fs0 = ⟨set_progress st0 jobs taskId
                      "error" 100 [("stage", .s "cache"),
                        ("message", .s "git not found in PATH")],
                      (if fsGet fs0 (cachePath hash8 url) ≠ .absent then
                        rmtree fs0 (cachePath hash8 url) else fs0),
                      "", .spawnFnf, false⟩ := by
                  unfold ensure_cached_repo
                  rw [if_neg hu, if_neg hhit, if_neg (not_not_intro hg)]
                  simp only [hsp]
                rw [heq] at hsp2
                exact Bool.noConfusion hsp2
            | other m =>
                have heq : ensure_cached_repo hash8 jobs taskId url refresh
                    timeout env st0 fs0 = ⟨set_progress st0 jobs taskId
                      "error" 100 [("stage", .s "cache"),
                        ("message", .s m)],
                      (if fsGet fs0 (cachePath hash8 url) ≠ .absent then
                        rmtree fs0 (cachePath hash8 url) else fs0),
                      "", .spawnErr, false⟩ := by
                  unfold ensure_cached_repo
                  rw [if_neg hu, if_neg hhit, if_neg (not_not_intro hg)]
                  simp only [hsp]
                rw [heq] at hsp2
                exact Bool.noConfusion hsp2
        | ok u =>
            cases hcl : ensureLoop jobs taskId timeout
              (set_progress st0 jobs taskId "cache" 15
                [("stage", .s "cache"), ("action", .s "cloning")])
              env.trace with
            | mk st2 r =>
                have hget : get_cached_path hash8
                    (fsSet (if fsGet fs0 (cachePath hash8 url) ≠ .absent
                        then rmtree fs0 (cachePath hash8 url) else fs0)
                      (cachePath hash8 url) env.childFs) url = none := by
                  simp only [get_cached_path]
                  rw [fsGet_fsSet_self, if_neg hch]
                cases r with
                | some t =>
                    have heq : ensure_cached_repo hash8 jobs taskId url
                        refresh timeout env st0 fs0 = ⟨st2,
                          fsSet (if fsGet fs0 (cachePath hash8 url) ≠
                              .absent then rmtree fs0 (cachePath hash8 url)
                            else fs0) (cachePath hash8 url) env.childFs,
                          "", t, true⟩ := by
                      unfold ensure_cached_repo
                      rw [if_neg hu, if_neg hhit,
                        if_neg (not_not_intro hg)]
                      simp only [hsp, hcl]
                    rw [heq]
                    exact hget
                | none =>
                    cases hw : env.wait with
                    | error m =>
                        have heq : ensure_cached_repo hash8 jobs taskId url
                            refresh timeout env st0 fs0 =
                            ⟨set_progress st2 jobs taskId "error" 100
                              [("stage", .s "cache"), ("message", .s m)],
                              fsSet (if fsGet fs0 (cachePath hash8 url) ≠
                                  .absent then
                                  rmtree fs0 (cachePath hash8 url)
                                else fs0) (cachePath hash8 url)
                                env.childFs,
                              "", .waitErr, true⟩ := by
                          unfold ensure_cached_repo
                          rw [if_neg hu, if_neg hhit,
                            if_neg (not_not_intro hg)]
                          simp only [hsp, hcl, hw]
                        rw [heq]
                        exact hget
                    | ok code =>
                        by_cases hz : code = 0
                        · subst hz
                          have heq : ensure_cached_repo hash8 jobs taskId
                              url refresh timeout env st0 fs0 =
                              ⟨set_progress st2 jobs taskId "cache" 25
                                [("stage", .s "cache")],
                                fsSet (if fsGet fs0 (cachePath hash8 url) ≠
                                    .absent then
                                    rmtree fs0 (cachePath hash8 url)
                                  else fs0) (cachePath hash8 url)
                                  env.childFs,
                                cachePath hash8 url, .exited 0, true⟩ := by
                            unfold ensure_cached_repo
                            rw [if_neg hu, if_neg hhit,
                              if_neg (not_not_intro hg)]
                            simp only [hsp, hcl, hw]
                            rw [if_pos trivial]
                          rw [heq] at hres
                          exact absurd hres
                            (str_append_ne_left "outputs/cache/" _
                              (by decide))
                        · have heq : ensure_cached_repo hash8 jobs taskId
                              url refresh timeout env st0 fs0 =
                              ⟨set_progress st2 jobs taskId "error" 100
                                [("stage", .s "cache"),
                                 ("message", .s ("git clone failed: " ++
                                   toString code)),
                                 ("stderr", .strList (lastFive (pySplitlines
                                   (env.commErr.getD ""))))],
                                fsSet (if fsGet fs0 (cachePath hash8 url) ≠
                                    .absent then
                                    rmtree fs0 (cachePath hash8 url)
                                  else fs0) (cachePath hash8 url)
                                  env.childFs,
                                "", .exited code, true⟩ := by
                            unfold ensure_cached_repo
                            rw [if_neg hu, if_neg hhit,
                              if_neg (not_not_intro hg)]
                            simp only [hsp, hcl, hw]
                            rw [if_neg hz]
                          rw [heq]
                          exact hget
      · have heq : ensure_cached_repo hash8 jobs taskId url refresh timeout
            env st0 fs0 = ⟨set_progress st0 jobs taskId "error" 100
              [("stage", .s "cache"),
               ("message", .s "git not found in PATH")],
              (if fsGet fs0 (cachePath hash8 url) ≠ .absent then
                rmtree fs0 (cachePath hash8 url) else fs0),
              "", .gitMissing, false⟩ := by
          unfold ensure_cached_repo
          rw [if_neg hu, if_neg hhit, if_pos hg]
        rw [heq] at hsp2
        exact Bool.noConfusion hsp2

/-- Witness for C1 amended: a timed-out clone whose child had created the
directory but not the marker fails the validity check afterwards. -/
theorem C1_witness :
    get_cached_path (fun _ => "aaaaaaaa")
      (ensure_cached_repo (fun _ => "aaaaaaaa") [] "t1"
        "https://github.com/acme/widgets" false 180
        ⟨true, .ok (), [⟨none, 200, .read "" false⟩], .ok 0, none,
          .dir false⟩ ⟨[], []⟩ []).fs "https://github.com/acme/widgets" =
      none :=
  C1_failed_clone_leaves_child_state (fun _ => "aaaaaaaa") [] "t1"
    "https://github.com/acme/widgets" false 180
    ⟨true, .ok (), [⟨none, 200, .read "" false⟩], .ok 0, none, .dir false⟩
    ⟨[], []⟩ [] (by decide) (by decide) (by decide)

/-- C2 counterexample: the URL check runs before the cache lookup, so for
a URL failing validation the call errors out even when a valid cache
entry exists on disk for that URL — no cache-hit record, no returned
path.  The claim as stated quantifies over every URL. -/
theorem C2_counterexample :
    get_cached_path (fun _ => "aaaaaaaa")
      [("outputs/cache/evil-aaaaaaaa", CacheEntry.dir true)] "evil" =
      some "outputs/cache/evil-aaaaaaaa" ∧
    (ensure_cached_repo (fun _ => "aaaaaaaa") [] "t1" "evil" false 180
      ⟨true, .ok (), [], .ok 0, none, .absent⟩ ⟨[], []⟩
      [("outputs/cache/evil-aaaaaaaa", CacheEntry.dir true)]).result = "" ∧
    (ensure_cached_repo (fun _ => "aaaaaaaa") [] "t1" "evil" false 180
      ⟨true, .ok (), [], .ok 0, none, .absent⟩ ⟨[], []⟩
      [("outputs/cache/evil-aaaaaaaa", CacheEntry.dir true)]).tag =
      .invalidUrl ∧
    lastField (ensure_cached_repo (fun _ => "aaaaaaaa") [] "t1" "evil"
      false 180 ⟨true, .ok (), [], .ok 0, none, .absent⟩ ⟨[], []⟩
      [("outputs/cache/evil-aaaaaaaa", CacheEntry.dir true)]).st "status" =
      some (.s "error") := by decide

/-- C2 amended: for a URL that passes validation, a call with refresh
false against a valid cache entry publishes the cache-hit record at
percent 25 and returns the cached path without spawning; and two
successive refresh-false calls for the same URL perform at most one
underlying clone, the second returning the identical path with no spawn
(assuming a successful clone leaves the version-control marker). -/
theorem C2_cache_hit_and_dedup :
    (∀ (hash8 : String → String) (jobs : List Job) (taskId url : String)
        (timeout : Nat) (env : EnsureEnv) (st0 : PState) (fs0 : CacheFs)
        (p : String),
      ¬ (url = "" ∨ ¬ pyIn "github.com" url) →
      get_cached_path hash8 fs0 url = some p →
      (ensure_cached_repo hash8 jobs taskId url false timeout env st0
        fs0).result = p ∧
      (ensure_cached_repo hash8 jobs taskId url false timeout env st0
        fs0).spawned = false ∧
      lastField (ensure_cached_repo hash8 jobs taskId url false timeout env
        st0 fs0).st "status" = some (.s "cache") ∧
      lastField (ensure_cached_repo hash8 jobs taskId url false timeout env
        st0 fs0).st "percent" = some (.i 25) ∧
      lastField (ensure_cached_repo hash8 jobs taskId url false timeout env
        st0 fs0).st "cached" = some (.b true)) ∧
    (∀ (hash8 : String → String) (jobs : List Job) (tid1 tid2 url : String)
        (t1 t2 : Nat) (env1 env2 : EnsureEnv) (st0 : PState)
        (fs0 : CacheFs),
      env1.childFs = CacheEntry.dir true →
      (ensure_cached_repo hash8 jobs tid1 url false t1 env1 st0
        fs0).result ≠ "" →
      (ensure_cached_repo hash8 jobs tid2 url false t2 env2
        (ensure_cached_repo hash8 jobs tid1 url false t1 env1 st0 fs0).st
        (ensure_cached_repo hash8 jobs tid1 url false t1 env1 st0
          fs0).fs).result =
        (ensure_cached_repo hash8 jobs tid1 url false t1 env1 st0
          fs0).result ∧
      (ensure_cached_repo hash8 jobs tid2 url false t2 env2
        (ensure_cached_repo hash8 jobs tid1 url false t1 env1 st0 fs0).st
        (ensure_cached_repo hash8 jobs tid1 url false t1 env1 st0
          fs0).fs).spawned = false ∧
      (if (ensure_cached_repo hash8 jobs tid1 url false t1 env1 st0
          fs0).spawned then 1 else 0) +
        (if (ensure_cached_repo hash8 jobs tid2 url false t2 env2
          (ensure_cached_repo hash8 jobs tid1 url false t1 env1 st0 fs0).st
          (ensure_cached_repo hash8 jobs tid1 url false t1 env1 st0
            fs0).fs).spawned then 1 else 0) ≤ 1) := by
  have hit_eq : ∀ (hash8 : String → String) (jobs : List Job)
      (taskId url : String) (timeout : Nat) (env : EnsureEnv)
      (st0 : PState) (fs0 : CacheFs),
      ¬ (url = "" ∨ ¬ pyIn "github.com" url) →
      (get_cached_path hash8 fs0 url).isSome = true →
      ensure_cached_repo hash8 jobs taskId url false timeout env st0 fs0 =
        ⟨set_progress st0 jobs taskId "cache" 25
          [("stage", .s "cache"), ("cached", .b true)],
          fs0, cachePath hash8 url, .cacheHit, false⟩ := by
    intro hash8 jobs taskId url timeout env st0 fs0 hv hb
    unfold ensure_cached_repo
    rw [if_neg hv, if_pos ⟨by decide, hb⟩]
  have path_of : ∀ (hash8 : String → String) (fs0 : CacheFs)
      (url p : String), get_cached_path hash8 fs0 url = some p →
      p = cachePath hash8 url := by
    intro hash8 fs0 url p hhit
    simp only [get_cached_path] at hhit
    by_cases hc : fsGet fs0 (cachePath hash8 url) = CacheEntry.dir true
    · rw [if_pos hc] at hhit
      exact (Option.some.inj hhit).symm
    · rw [if_neg hc] at hhit
      exact Option.noConfusion hhit
  have hit_fields : ∀ (st0 : PState) (jobs : List Job) (taskId : String),
      lastField (set_progress st0 jobs taskId "cache" 25
        [("stage", .s "cache"), ("cached", .b true)]) "status" =
        some (.s "cache") ∧
      lastField (set_progress st0 jobs taskId "cache" 25
        [("stage", .s "cache"), ("cached", .b true)]) "percent" =
        some (.i 25) ∧
      lastField (set_progress st0 jobs taskId "cache" 25
        [("stage", .s "cache"), ("cached", .b true)]) "cached" =
        some (.b true) := by
    intro st0 jobs taskId
    refine ⟨?_, ?_, ?_⟩
    · rw [lastField_set_progress,
        mkRecord_status _ _ _ _ _ (by simp [dictKeys])]
    · rw [lastField_set_progress,
        mkRecord_percent _ _ _ _ _ (by simp [dictKeys])]
      decide
    · rw [lastField_set_progress, mkRecord_eq]
      simp only [dictUpdate, List.foldl_cons, List.foldl_nil]
      rw [dictGet_dictSet_self]
  constructor
  · intro hash8 jobs taskId url timeout env st0 fs0 p hv hhit
    have hb : (get_cached_path hash8 fs0 url).isSome = true := by
      rw [hhit]; rfl
    have heq := hit_eq hash8 jobs taskId url timeout env st0 fs0 hv hb
    obtain ⟨f1, f2, f3⟩ := hit_fields st0 jobs taskId
    rw [heq]
    exact ⟨(path_of hash8 fs0 url p hhit).symm, rfl, f1, f2, f3⟩
  · intro hash8 jobs tid1 tid2 url t1 t2 env1 env2 st0 fs0 hchild hres
    by_cases hu : url = "" ∨ ¬ pyIn "github.com" url
    · have heq : ensure_cached_repo hash8 jobs tid1 url false t1 env1 st0
          fs0 = ⟨set_progress st0 jobs tid1 "error" 100
            [("stage", .s "cache"), ("message", .s "Invalid GitHub URL")],
            fs0, "", .invalidUrl, false⟩ := by
        unfold ensure_cached_repo
        rw [if_pos hu]
      rw [heq] at hres
      exact absurd rfl hres
    · by_cases hhit : ¬ (false : Bool) ∧
          (get_cached_path hash8 fs0 url).isSome = true
      · have heq := hit_eq hash8 jobs tid1 url t1 env1 st0 fs0 hu hhit.2
        have heq2 := hit_eq hash8 jobs tid2 url t2 env2
          (ensure_cached_repo hash8 jobs tid1 url false t1 env1 st0 fs0).st
          fs0 hu hhit.2
        rw [heq]
        rw [heq] at heq2
        rw [heq2]
        exact ⟨rfl, rfl, by simp⟩
      · have hb0 : ¬ (¬ (false : Bool) ∧
            (get_cached_path hash8 fs0 url).isSome = true) := hhit
        by_cases hg : env1.gitAvailable = true
        · cases hsp : env1.spawn with
          | error e =>
              cases e with
              | fnf =>
                  have heq : ensure_cached_repo hash8 jobs tid1 url false
                      t1 env1 st0 fs0 = ⟨set_progress st0 jobs tid1
                        "error" 100 [("stage", .s "cache"),
                          ("message", .s "git not found in PATH")],
                        (if fsGet fs0 (cachePath hash8 url) ≠ .absent then
                          rmtree fs0 (cachePath hash8 url) else fs0),
                        "", .spawnFnf, false⟩ := by
                    unfold ensure_cached_repo
                    rw [if_neg hu, if_neg hb0, if_neg (not_not_intro hg)]
                    simp only [hsp]
                  rw [heq] at hres
                  exact absurd rfl hres
              | other m =>
                  have heq : ensure_cached_repo hash8 jobs tid1 url false
                      t1 env1 st0 fs0 = ⟨set_progress st0 jobs tid1
                        "error" 100 [("stage", .s "cache"),
                          ("message", .s m)],
                        (if fsGet fs0 (cachePath hash8 url) ≠ .absent then
                          rmtree fs0 (cachePath hash8 url) else fs0),
                        "", .spawnErr, false⟩ := by
                    unfold ensure_cached_repo
                    rw [if_neg hu, if_neg hb0, if_neg (not_not_intro hg)]
                    simp only [hsp]
                  rw [heq] at hres
                  exact absurd rfl hres
          | ok u =>
              cases hcl : ensureLoop jobs tid1 t1
                (set_progress st0 jobs tid1 "cache" 15
                  [("stage", .s "cache"), ("action", .s "cloning")])
                env1.trace with
              | mk st2 r =>
                  cases r with
                  | some t =>
                      have heq : ensure_cached_repo hash8 jobs tid1 url
                          false t1 env1 st0 fs0 = ⟨st2,
                            fsSet (if fsGet fs0 (cachePath hash8 url) ≠
                                .absent then
                                rmtree fs0 (cachePath hash8 url)
                              else fs0) (cachePath hash8 url)
                              env1.childFs,
                            "", t, true⟩ := by
                        unfold ensure_cached_repo
                        rw [if_neg hu, if_neg hb0,
                          if_neg (not_not_intro hg)]
                        simp only [hsp, hcl]
                      rw [heq] at hres
                      exact absurd rfl hres
                  | none =>
                      cases hw : env1.wait with
                      | error m =>
                          have heq : ensure_cached_repo hash8 jobs tid1 url
                              false t1 env1 st0 fs0 =
                              ⟨set_progress st2 jobs tid1 "error" 100
                                [("stage", .s "cache"),
                                 ("message", .s m)],
                                fsSet (if fsGet fs0
                                    (cachePath hash8 url) ≠ .absent then
                                    rmtree fs0 (cachePath hash8 url)
                                  else fs0) (cachePath hash8 url)
                                  env1.childFs,
                                "", .waitErr, true⟩ := by
                            unfold ensure_cached_repo
                            rw [if_neg hu, if_neg hb0,
                              if_neg (not_not_intro hg)]
                            simp only [hsp, hcl, hw]
                          rw [heq] at hres
                          exact absurd rfl hres
                      | ok code =>
                          by_cases hz : code = 0
                          · subst hz
                            have heq : ensure_cached_repo hash8 jobs tid1
                                url false t1 env1 st0 fs0 =
                                ⟨set_progress st2 jobs tid1 "cache" 25
                                  [("stage", .s "cache")],
                                  fsSet (if fsGet fs0
                                      (cachePath hash8 url) ≠ .absent then
                                      rmtree fs0 (cachePath hash8 url)
                                    else fs0) (cachePath hash8 url)
                                    env1.childFs,
                                  cachePath hash8 url, .exited 0, true⟩ :=
                              by
                              unfold ensure_cached_repo
                              rw [if_neg hu, if_neg hb0,
                                if_neg (not_not_intro hg)]
                              simp only [hsp, hcl, hw]
                              rw [if_pos trivial]
                            have hb2 : (get_cached_path hash8
                                (ensure_cached_repo hash8 jobs tid1 url
                                  false t1 env1 st0 fs0).fs url).isSome =
                                true := by
                              rw [heq]
                              simp only [get_cached_path]
                              rw [fsGet_fsSet_self, hchild, if_pos rfl]
                              rfl
                            have heq2 := hit_eq hash8 jobs tid2 url t2 env2
                              (ensure_cached_repo hash8 jobs tid1 url false
                                t1 env1 st0 fs0).st
                              (ensure_cached_repo hash8 jobs tid1 url false
                                t1 env1 st0 fs0).fs hu hb2
                            rw [heq2, heq]
                            exact ⟨rfl, rfl, by simp⟩
                          · have heq : ensure_cached_repo hash8 jobs tid1
                                url false t1 env1 st0 fs0 =
                                ⟨set_progress st2 jobs tid1 "error" 100
                                  [("stage", .s "cache"),
                                   ("message", .s ("git clone failed: " ++
                                     toString code)),
                                   ("stderr", .strList (lastFive
                                     (pySplitlines
                                       (env1.commErr.getD ""))))],
                                  fsSet (if fsGet fs0
                                      (cachePath hash8 url) ≠ .absent then
                                      rmtree fs0 (cachePath hash8 url)
                                    else fs0) (cachePath hash8 url)
                                    env1.childFs,
                                  "", .exited code, true⟩ := by
                              unfold ensure_cached_repo
                              rw [if_neg hu, if_neg hb0,
                                if_neg (not_not_intro hg)]
                              simp only [hsp, hcl, hw]
                              rw [if_neg hz]
                            rw [heq] at hres
                            exact absurd rfl hres
        · have heq : ensure_cached_repo hash8 jobs tid1 url false t1 env1
              st0 fs0 = ⟨set_progress st0 jobs tid1 "error" 100
                [("stage", .s "cache"),
                 ("message", .s "git not found in PATH")],
                (if fsGet fs0 (cachePath hash8 url) ≠ .absent then
                  rmtree fs0 (cachePath hash8 url) else fs0),
                "", .gitMissing, false⟩ := by
            unfold ensure_cached_repo
            rw [if_neg hu, if_neg hb0, if_pos hg]
          rw [heq] at hres
          exact absurd rfl hres

/-- Witness for C2 amended: a seeded valid entry produces a hit, and a
successful clone followed by a second call spawns no second process and
returns the identical path. -/
theorem C2_witness :
    ((ensure_cached_repo (fun _ => "aaaaaaaa") [] "t1"
        "https://github.com/acme/widgets" false 180
        ⟨true, .ok (), [], .ok 0, none, .absent⟩ ⟨[], []⟩
        [("outputs/cache/widgets-aaaaaaaa", CacheEntry.dir true)]).result =
        "outputs/cache/widgets-aaaaaaaa" ∧
      (ensure_cached_repo (fun _ => "aaaaaaaa") [] "t1"
        "https://github.com/acme/widgets" false 180
        ⟨true, .ok (), [], .ok 0, none, .absent⟩ ⟨[], []⟩
        [("outputs/cache/widgets-aaaaaaaa",
          CacheEntry.dir true)]).spawned = false ∧
      lastField (ensure_cached_repo (fun _ => "aaaaaaaa") [] "t1"
        "https://github.com/acme/widgets" false 180
        ⟨true, .ok (), [], .ok 0, none, .absent⟩ ⟨[], []⟩
        [("outputs/cache/widgets-aaaaaaaa", CacheEntry.dir true)]).st
        "status" = some (.s "cache") ∧
      lastField (ensure_cached_repo (fun _ => "aaaaaaaa") [] "t1"
        "https://github.com/acme/widgets" false 180
        ⟨true, .ok (), [], .ok 0, none, .absent⟩ ⟨[], []⟩
        [("outputs/cache/widgets-aaaaaaaa", CacheEntry.dir true)]).st
        "percent" = some (.i 25) ∧
      lastField (ensure_cached_repo (fun _ => "aaaaaaaa") [] "t1"
        "https://github.com/acme/widgets" false 180
        ⟨true, .ok (), [], .ok 0, none, .absent⟩ ⟨[], []⟩
        [("outputs/cache/widgets-aaaaaaaa", CacheEntry.dir true)]).st
        "cached" = some (.b true)) ∧
    ((ensure_cached_repo (fun _ => "aaaaaaaa") [] "t2"
        "https://github.com/acme/widgets" false 180
        ⟨true, .ok (), [⟨none, 1, .read "" true⟩], .ok 0, none,
          .dir true⟩
        (ensure_cached_repo (fun _ => "aaaaaaaa") [] "t1"
          "https://github.com/acme/widgets" false 180
          ⟨true, .ok (), [⟨none, 1, .read "" true⟩], .ok 0, none,
            .dir true⟩ ⟨[], []⟩ []).st
        (ensure_cached_repo (fun _ => "aaaaaaaa") [] "t1"
          "https://github.com/acme/widgets" false 180
          ⟨true, .ok (), [⟨none, 1, .read "" true⟩], .ok 0, none,
            .dir true⟩ ⟨[], []⟩ []).fs).result =
      (ensure_cached_repo (fun _ => "aaaaaaaa") [] "t1"
        "https://github.com/acme/widgets" false 180
        ⟨true, .ok (), [⟨none, 1, .read "" true⟩], .ok 0, none,
          .dir true⟩ ⟨[], []⟩ []).result ∧
      (ensure_cached_repo (fun _ => "aaaaaaaa") [] "t2"
        "https://github.com/acme/widgets" false 180
        ⟨true, .ok (), [⟨none, 1, .read "" true⟩], .ok 0, none,
          .dir true⟩
        (ensure_cached_repo (fun _ => "aaaaaaaa") [] "t1"
          "https://github.com/acme/widgets" false 180
          ⟨true, .ok (), [⟨none, 1, .read "" true⟩], .ok 0, none,
            .dir true⟩ ⟨[], []⟩ []).st
        (ensure_cached_repo (fun _ => "aaaaaaaa") [] "t1"
          "https://github.com/acme/widgets" false 180
          ⟨true, .ok (), [⟨none, 1, .read "" true⟩], .ok 0, none,
            .dir true⟩ ⟨[], []⟩ []).fs).spawned = false) := by
  constructor
  · exact C2_cache_hit_and_dedup.1 (fun _ => "aaaaaaaa") [] "t1"
      "https://github.com/acme/widgets" 180
      ⟨true, .ok (), [], .ok 0, none, .absent⟩ ⟨[], []⟩
      [("outputs/cache/widgets-aaaaaaaa", CacheEntry.dir true)]
      "outputs/cache/widgets-aaaaaaaa" (by decide) (by decide)
  · obtain ⟨w1, w2, _⟩ := C2_cache_hit_and_dedup.2 (fun _ => "aaaaaaaa")
      [] "t1" "t2" "https://github.com/acme/widgets" 180 180
      ⟨true, .ok (), [⟨none, 1, .read "" true⟩], .ok 0, none, .dir true⟩
      ⟨true, .ok (), [⟨none, 1, .read "" true⟩], .ok 0, none, .dir true⟩
      ⟨[], []⟩ [] rfl (by decide)
    exact ⟨w1, w2⟩

/- ---------------------------------------------------------------------
   Ledger lemmas.
--------------------------------------------------------------------- -/

theorem findJob_create (jobs : List Job) (taskId repoUrl now : String) :
    findJob (create_job jobs taskId repoUrl now) taskId = some
      { id := taskId, repo_url := repoUrl, status := "pending",
        agent := .s "CodeAnalyzer", priority := .s "medium", date := now,
        created_at := now, updated_at := now, ended_at := "",
        details := [("stage", .s "start")],
        history := [⟨now, "pending"⟩] } := by
  unfold create_job findJob
  induction jobs with
  | nil => simp [List.find?]
  | cons a rest ih =>
      by_cases ha : a.id = taskId
      · simp [List.filter_cons, ha]
      · simp [List.filter_cons, List.find?, ha]

theorem create_job_unique (jobs : List Job) (taskId repoUrl now : String) :
    ∀ j ∈ create_job jobs taskId repoUrl now, j.id = taskId →
      some j = findJob (create_job jobs taskId repoUrl now) taskId := by
  intro j hj hid
  rw [findJob_create]
  unfold create_job at hj
  rcases List.mem_append.mp hj with hm | hm
  · exact absurd hid (by simpa using (List.mem_filter.mp hm).2)
  · simp only [List.mem_singleton] at hm
    rw [hm]

theorem findJob_updateFirst (taskId : String) (f : Job → Job)
    (hid : ∀ j, (f j).id = j.id) :
    ∀ jobs, findJob (updateFirst taskId f jobs) taskId =
      (findJob jobs taskId).map f := by
  intro jobs
  induction jobs with
  | nil => rfl
  | cons a rest ih =>
      unfold updateFirst findJob
      by_cases ha : a.id = taskId
      · rw [if_pos ha]
        simp [List.find?, ha, hid a]
      · rw [if_neg ha]
        simp only [List.find?, hid]
        rw [show (decide (a.id = taskId)) = false by simpa using ha]
        exact ih

theorem applyUpdate_id (status : String) (details : Option Dict)
    (now : String) (j : Job) :
    (applyUpdate status details now j).id = j.id := by
  unfold applyUpdate
  dsimp only
  repeat' split
  all_goals rfl

/-- The agent field after update_job: the fixed table wins when the
lowercased status is in it; otherwise a caller-supplied agent from a
truthy details dict, else the prior agent. -/
theorem applyUpdate_agent (status : String) (dd : Dict) (now : String)
    (j : Job) :
    (applyUpdate status (some dd) now j).agent =
      (if pyLower status = "completed" then JVal.s "DocGenerator"
       else if pyLower status = "error" ∨ pyLower status = "canceled" ∨
          pyLower status = "timeout" then JVal.s "Supervisor"
       else if pyLower status = "pending" ∨
          pyLower status = "in_progress" then JVal.s "CodeAnalyzer"
       else if detailsTruthy (some dd) then
         (match dictGet dd "agent" with
          | some v => v
          | none => j.agent)
       else j.agent) := by
  unfold applyUpdate
  dsimp only
  repeat' split
  all_goals simp_all

/-- C7: create_job then update_job(id, "completed", {}) yields a record
whose agent is the completion role DocGenerator, whose ended_at is the
non-empty completion timestamp, and whose history is exactly the pending
entry followed by the completed entry; create_job itself initializes
status pending, agent CodeAnalyzer, empty ended_at and a one-entry
history, replacing any prior record with the same id. -/
theorem C7_create_then_complete (jobs : List Job)
    (taskId repoUrl n1 n2 : String) (h2 : n2 ≠ "") :
    ∃ r0 r : Job,
      findJob (create_job jobs taskId repoUrl n1) taskId = some r0 ∧
      r0.status = "pending" ∧ r0.agent = .s "CodeAnalyzer" ∧
      r0.ended_at = "" ∧ r0.history = [⟨n1, "pending"⟩] ∧
      (∀ j ∈ create_job jobs taskId repoUrl n1, j.id = taskId → j = r0) ∧
      findJob (update_job (create_job jobs taskId repoUrl n1) taskId
        "completed" (some []) n2) taskId = some r ∧
      r.agent = .s "DocGenerator" ∧ r.ended_at = n2 ∧ r.ended_at ≠ "" ∧
      r.history = [⟨n1, "pending"⟩, ⟨n2, "completed"⟩] := by
  refine ⟨{ id := taskId, repo_url := repoUrl, status := "pending",
            agent := .s "CodeAnalyzer", priority := .s "medium",
            date := n1, created_at := n1, updated_at := n1,
            ended_at := "", details := [("stage", .s "start")],
            history := [⟨n1, "pending"⟩] },
    applyUpdate "completed" (some []) n2
      { id := taskId, repo_url := repoUrl, status := "pending",
        agent := .s "CodeAnalyzer", priority := .s "medium", date := n1,
        created_at := n1, updated_at := n1, ended_at := "",
        details := [("stage", .s "start")],
        history := [⟨n1, "pending"⟩] },
    findJob_create jobs taskId repoUrl n1, rfl, rfl, rfl, rfl,
    ?_, ?_, rfl, rfl, h2, rfl⟩
  · intro j hj hid
    exact Option.some.inj
      ((create_job_unique jobs taskId repoUrl n1 j hj hid).trans
        (findJob_create jobs taskId repoUrl n1))
  · rw [update_job,
      findJob_updateFirst taskId _ (applyUpdate_id "completed" (some []) n2),
      findJob_create]
    rfl

/-- Witness for C7 at concrete timestamps. -/
theorem C7_witness :
    ∃ r0 r : Job,
      findJob (create_job [] "t1" "https://github.com/a/b" "T0") "t1" =
        some r0 ∧
      r0.status = "pending" ∧ r0.agent = .s "CodeAnalyzer" ∧
      r0.ended_at = "" ∧ r0.history = [⟨"T0", "pending"⟩] ∧
      (∀ j ∈ create_job [] "t1" "https://github.com/a/b" "T0",
        j.id = "t1" → j = r0) ∧
      findJob (update_job (create_job [] "t1" "https://github.com/a/b"
        "T0") "t1" "completed" (some []) "T1") "t1" = some r ∧
      r.agent = .s "DocGenerator" ∧ r.ended_at = "T1" ∧ r.ended_at ≠ "" ∧
      r.history = [⟨"T0", "pending"⟩, ⟨"T1", "completed"⟩] :=
  C7_create_then_complete [] "t1" "https://github.com/a/b" "T0" "T1"
    (by decide)

/-- C8 counterexample: for a status outside the fixed table the mapping
is skipped and a caller-supplied agent in details survives to the record,
so the agent is not determined by the table and is not overwritten. -/
theorem C8_counterexample :
    (findJob (update_job (create_job [] "t1" "https://github.com/a/b"
      "T0") "t1" "paused" (some [("agent", JVal.s "Impostor")]) "T1")
      "t1").map Job.agent = some (.s "Impostor") ∧
    (JVal.s "Impostor") ∉ [JVal.s "DocGenerator", JVal.s "Supervisor",
      JVal.s "CodeAnalyzer"] := by decide

/-- C8 amended: update_job derives the agent from the fixed table for the
lowercased statuses the table covers — completed to DocGenerator; error,
canceled, timeout to Supervisor; pending, in_progress to CodeAnalyzer —
overwriting any caller-supplied agent there; for statuses outside the
table a caller-supplied agent in a non-empty details dict becomes the
record's agent. -/
theorem C8_agent_by_status (jobs : List Job) (taskId status : String)
    (dd : Dict) (now : String) (r : Job)
    (hr : findJob (update_job jobs taskId status (some dd) now) taskId =
      some r) :
    (pyLower status = "completed" → r.agent = .s "DocGenerator") ∧
    (pyLower status = "error" ∨ pyLower status = "canceled" ∨
      pyLower status = "timeout" → r.agent = .s "Supervisor") ∧
    (pyLower status = "pending" ∨ pyLower status = "in_progress" →
      r.agent = .s "CodeAnalyzer") ∧
    (pyLower status ≠ "completed" → pyLower status ≠ "error" →
      pyLower status ≠ "canceled" → pyLower status ≠ "timeout" →
      pyLower status ≠ "pending" → pyLower status ≠ "in_progress" →
      dd ≠ [] → ∀ v, dictGet dd "agent" = some v → r.agent = v) := by
  rw [update_job,
    findJob_updateFirst taskId _ (applyUpdate_id status (some dd) now)] at hr
  cases hf : findJob jobs taskId with
  | none =>
      rw [hf] at hr
      exact Option.noConfusion hr
  | some r0 =>
      rw [hf] at hr
      have hr2 : r = applyUpdate status (some dd) now r0 :=
        (Option.some.inj hr).symm
      subst hr2
      have hag := applyUpdate_agent status dd now r0
      refine ⟨?_, ?_, ?_, ?_⟩
      · intro hc
        rw [hag, if_pos hc]
      · intro hc
        have hnc : ¬ pyLower status = "completed" := by
          rcases hc with h | h | h <;> rw [h] <;> decide
        rw [hag, if_neg hnc, if_pos hc]
      · intro hc
        have hnc : ¬ pyLower status = "completed" := by
          rcases hc with h | h <;> rw [h] <;> decide
        have hns : ¬ (pyLower status = "error" ∨
            pyLower status = "canceled" ∨ pyLower status = "timeout") := by
          rcases hc with h | h <;> rw [h] <;> decide
        rw [hag, if_neg hnc, if_neg hns, if_pos hc]
      · intro h1 h2 h3 h4 h5 h6 hdd v hv
        have hns : ¬ (pyLower status = "error" ∨
            pyLower status = "canceled" ∨ pyLower status = "timeout") := by
          tauto
        have hnp : ¬ (pyLower status = "pending" ∨
            pyLower status = "in_progress") := by
          tauto
        have hdt : detailsTruthy (some dd) = true := by
          simp [detailsTruthy, hdd]
        rw [hag, if_neg h1, if_neg hns, if_neg hnp, if_pos hdt, hv]

/-- Witness for C8 amended: status "error" maps the agent to Supervisor
even though the caller supplied a different agent in details. -/
theorem C8_witness :
    (findJob (update_job (create_job [] "t1" "https://github.com/a/b"
      "T0") "t1" "error" (some [("agent", JVal.s "X")]) "T1") "t1").map
      Job.agent = some (.s "Supervisor") := by
  cases hf : findJob (update_job (create_job [] "t1"
      "https://github.com/a/b" "T0") "t1" "error"
      (some [("agent", JVal.s "X")]) "T1") "t1" with
  | none => exact absurd hf (by decide)
  | some r =>
      have h := (C8_agent_by_status (create_job [] "t1"
        "https://github.com/a/b" "T0") "t1" "error"
        [("agent", JVal.s "X")] "T1" r hf).2.1 (Or.inl (by decide))
      simp [h]

end Spec2Proof
